import Mathlib

/-!
Verification of the Innonet relationship-graph core against its
natural-language specification.

The definitions below are a shallow embedding of the Python sources:

* `src/backend/src/network/service.py`  — connection lifecycle manager
  (`send_connection_request`, `accept_connection`, `decline_connection`,
  `remove_connection`, `_sync_connection_to_neo4j`);
* `src/backend/src/database/neo4j.py`   — graph mirror operations
  (`create_connection_request` Cypher MERGE semantics);
* `src/backend/src/database/postgres.py` — the `get_db` commit/rollback
  boundary around each request;
* `src/backend/src/graph/service.py`    — `find_path` (relational BFS),
  `_get_ecosystem_graph`, `get_clustered_graph`;
* `src/backend/src/graph/similarity_service.py` — `_find_skill_similar`,
  `_merge_similarities`, `compute_user_similarities`.

User ids are modelled as `Nat` (the code uses UUIDs; only equality is ever
used).  Timestamps are modelled as `Nat` instants supplied by the caller
(`datetime.now` at the call site).  Scores are modelled as `ℚ` (the code
uses Python floats; the claims under scrutiny only involve exactly
representable comparisons).
-/

namespace Innonet

/-- Connection status: the `status` column of the `connections` table
(`'pending' | 'accepted' | 'declined'`, `src/profiles/models.py`). -/
inductive ConnStatus
  | pending
  | accepted
  | declined
deriving DecidableEq, Repr

/-- A row of the `connections` table (`Connection` in
`src/profiles/models.py`). -/
structure Connection where
  id : Nat
  requester_id : Nat
  addressee_id : Nat
  status : ConnStatus
  message : Option String
  requested_at : Nat
  responded_at : Option Nat
deriving DecidableEq, Repr

/-- A row of the `users` table as far as the network service consults it
(`User.id`, `User.is_active`). -/
structure UserRow where
  id : Nat
  is_active : Bool
deriving DecidableEq, Repr

/-- The relational store visible to the network service. -/
structure NetState where
  users : List UserRow
  connections : List Connection
deriving DecidableEq, Repr

/-- Errors raised by the connection lifecycle manager.  The Python code
raises `ValueError` with distinct messages; the spec taxonomy (§7) and
`src/exceptions.py` distinguish NotFound / Validation / Conflict /
Authorization, so each distinct message is a constructor here.
`authorization` models `AuthorizationError` from `src/exceptions.py`;
it exists in the error taxonomy but is never raised by these paths.
`multipleResultsFound` models sqlalchemy's `MultipleResultsFound`,
raised by `scalar_one_or_none()` when the pair query matches several
rows — it is not a `ValueError`, so the router does not map it to a 4xx;
it escapes as a server error. -/
inductive NetErr
  | cannotConnectSelf
  | userNotFound
  | alreadyConnected
  | alreadyPending
  | connectionNotFound
  | authorization
  | multipleResultsFound
deriving DecidableEq, Repr

/-- The rows matched by the `existing` query of
`send_connection_request` (`src/network/service.py` lines 46-60): every
connection row for the unordered pair, in table order. -/
def pairConnections (conns : List Connection) (requester addressee : Nat) :
    List Connection :=
  conns.filter fun c =>
    (c.requester_id == requester && c.addressee_id == addressee) ||
    (c.requester_id == addressee && c.addressee_id == requester)

/-- The first connection row matching the pair in either direction —
the value `existing.scalar_one_or_none()` yields whenever at most one
row matches.  When several rows match, `scalar_one_or_none()` raises
`MultipleResultsFound` instead; `sendConnectionRequest` models that
through `pairConnections`.  The race model's check phase uses only the
empty case, where `find? = none` coincides exactly with
`scalar_one_or_none() is None`. -/
def findExistingConnection (conns : List Connection) (requester addressee : Nat) :
    Option Connection :=
  conns.find? fun c =>
    (c.requester_id == requester && c.addressee_id == addressee) ||
    (c.requester_id == addressee && c.addressee_id == requester)

/-- Embeds `NetworkService.send_connection_request` (`src/network/service.py`
lines 26-99), relational part.  `now` is the current timestamp and
`newId` the id allocated on insert.  Returns the (possibly) updated
store together with the result; on error the store is unchanged.
`existing.scalar_one_or_none()` is modelled on the matched row list:
no row — fresh insert; exactly one row — branch on its status; several
rows — `MultipleResultsFound` is raised. -/
def sendConnectionRequest (st : NetState) (requester addressee : Nat)
    (message : Option String) (now newId : Nat) :
    NetState × Except NetErr Connection :=
  if requester == addressee then
    (st, .error .cannotConnectSelf)
  else if !(st.users.any fun u => u.id == addressee && u.is_active) then
    (st, .error .userNotFound)
  else
    match pairConnections st.connections requester addressee with
    | [] =>
      let c : Connection :=
        { id := newId
          requester_id := requester
          addressee_id := addressee
          status := .pending
          message := message
          requested_at := now
          responded_at := none }
      ({ st with connections := st.connections ++ [c] }, .ok c)
    | [c] =>
      match c.status with
      | .accepted => (st, .error .alreadyConnected)
      | .pending => (st, .error .alreadyPending)
      | .declined =>
        let c1 : Connection :=
          { c with
            status := .pending
            requester_id := requester
            addressee_id := addressee
            message := message
            requested_at := now
            responded_at := none }
        ({ st with
            connections := st.connections.map fun x => if x.id == c.id then c1 else x },
          .ok c1)
    | _ :: _ :: _ => (st, .error .multipleResultsFound)

/-- Embeds `NetworkService.accept_connection` (`src/network/service.py` lines
101-130), relational part.  The query filters on
`id == connection_id AND addressee_id == user_id AND status == 'pending'`;
if nothing matches it raises `ValueError("Connection request not found")`. -/
def acceptConnection (st : NetState) (connectionId userId now : Nat) :
    NetState × Except NetErr Connection :=
  match st.connections.find? (fun c =>
      c.id == connectionId && c.addressee_id == userId && c.status == ConnStatus.pending) with
  | none => (st, .error .connectionNotFound)
  | some c =>
    let c1 : Connection := { c with status := .accepted, responded_at := some now }
    ({ st with connections := st.connections.map fun x => if x.id == c.id then c1 else x },
      .ok c1)

/-- Embeds `NetworkService.decline_connection` (`src/network/service.py` lines
132-161), relational part. -/
def declineConnection (st : NetState) (connectionId userId now : Nat) :
    NetState × Except NetErr Connection :=
  match st.connections.find? (fun c =>
      c.id == connectionId && c.addressee_id == userId && c.status == ConnStatus.pending) with
  | none => (st, .error .connectionNotFound)
  | some c =>
    let c1 : Connection := { c with status := .declined, responded_at := some now }
    ({ st with connections := st.connections.map fun x => if x.id == c.id then c1 else x },
      .ok c1)

/-- Embeds `NetworkService.remove_connection` (`src/network/service.py` lines
163-198), relational part: the matching accepted row (with the caller a
participant) is deleted. -/
def removeConnection (st : NetState) (connectionId userId : Nat) :
    NetState × Except NetErr Bool :=
  match st.connections.find? (fun c =>
      c.id == connectionId && c.status == ConnStatus.accepted &&
      (c.requester_id == userId || c.addressee_id == userId)) with
  | none => (st, .error .connectionNotFound)
  | some c =>
    ({ st with connections := st.connections.filter fun x => !(x.id == c.id) }, .ok true)

/-! ### Graph mirror sync and the request boundary

`neo4j_client` methods (`src/database/neo4j.py`) start with
`if not self.is_connected: ... return` and otherwise run a Cypher query
that may raise.  `_sync_connection_to_neo4j` (`src/network/service.py`
lines 487-508) wraps the client call in `try/except` and logs; the
`accept_connection` / `decline_connection` / `remove_connection` bodies
call the client directly with no `try/except`.  `get_db`
(`src/database/postgres.py` lines 35-44) commits after the handler
returns normally and rolls the session back when any exception escapes. -/

/-- Outcome of the Cypher write when the client is connected and the
write is attempted. -/
inductive MirrorOutcome
  | succeeds
  | raises
deriving DecidableEq, Repr

/-- A `neo4j_client` connection write (`create_connection_request`,
`accept_connection`, ...): skipped silently when not connected
(`execute_query` returns `[]`), otherwise it may raise. -/
def mirrorWrite (connected : Bool) (m : MirrorOutcome) : Except Unit Unit :=
  if connected then
    match m with
    | .succeeds => .ok ()
    | .raises => .error ()
  else .ok ()

/-- Embeds `NetworkService._sync_connection_to_neo4j` (`src/network/service.py`
lines 487-508): returns early when not connected, and wraps the client
call in `try/except Exception`, logging the error — it never raises. -/
def syncConnectionToNeo4j (connected : Bool) (m : MirrorOutcome) : Except Unit Unit :=
  if !connected then .ok ()
  else
    match mirrorWrite connected m with
    | .ok _ => .ok ()
    | .error _ => .ok ()

/-- Result of one request against the service, as observed by the caller
through the router / `get_db` boundary. -/
inductive CallResult
  | ok
  | appError (e : NetErr)
  | mirrorException
deriving DecidableEq, Repr

/-- One `send_connection_request` request end to end: relational write,
then `_sync_connection_to_neo4j`, then the `get_db` commit (rollback if
anything escaped).  The sync helper swallows mirror failures, so the
relational result always commits. -/
def sendConnectionRequestApi (st : NetState) (requester addressee : Nat)
    (message : Option String) (now newId : Nat)
    (connected : Bool) (m : MirrorOutcome) : NetState × CallResult :=
  let r := sendConnectionRequest st requester addressee message now newId
  match r.2 with
  | .error e => (st, .appError e)
  | .ok _ =>
    match syncConnectionToNeo4j connected m with
    | .ok _ => (r.1, .ok)
    | .error _ => (st, .mirrorException)

/-- One `accept_connection` request end to end: relational write, then a
direct `neo4j_client.accept_connection` call (lines 124-128, no
`try/except`), then the `get_db` boundary.  A raising mirror write
escapes the handler, so `get_db` rolls the relational write back and the
caller sees the exception. -/
def acceptConnectionApi (st : NetState) (connectionId userId now : Nat)
    (connected : Bool) (m : MirrorOutcome) : NetState × CallResult :=
  let r := acceptConnection st connectionId userId now
  match r.2 with
  | .error e => (st, .appError e)
  | .ok _ =>
    match mirrorWrite connected m with
    | .ok _ => (r.1, .ok)
    | .error _ => (st, .mirrorException)

/-- One `decline_connection` request end to end (direct client call at
lines 155-159, no `try/except`). -/
def declineConnectionApi (st : NetState) (connectionId userId now : Nat)
    (connected : Bool) (m : MirrorOutcome) : NetState × CallResult :=
  let r := declineConnection st connectionId userId now
  match r.2 with
  | .error e => (st, .appError e)
  | .ok _ =>
    match mirrorWrite connected m with
    | .ok _ => (r.1, .ok)
    | .error _ => (st, .mirrorException)

/-- One `remove_connection` request end to end (direct client call at
line 196, no `try/except`). -/
def removeConnectionApi (st : NetState) (connectionId userId : Nat)
    (connected : Bool) (m : MirrorOutcome) : NetState × CallResult :=
  let r := removeConnection st connectionId userId
  match r.2 with
  | .error e => (st, .appError e)
  | .ok _ =>
    match mirrorWrite connected m with
    | .ok _ => (r.1, .ok)
    | .error _ => (st, .mirrorException)

/-! ### Two concurrent `send_connection_request` calls

`send_connection_request` performs its duplicate check (lines 46-60) and
its write (lines 62-97) as separate database round-trips with no
`SELECT ... FOR UPDATE` and no row-level lock.  To reason about two
near-simultaneous calls we split the operation into its check step and
its act step; an interleaving is a sequence of these atomic steps.  The
insert respects the ordered-pair unique constraint
`uq_connection_pair (requester_id, addressee_id)`
(`src/profiles/models.py` lines 260-262). -/

/-- Errors surfaced by the database itself. -/
inductive DbErr
  | uniqueViolation
deriving DecidableEq, Repr

/-- The check phase of `send_connection_request`: validations plus the
`existing` read, returning the snapshot the act phase will use. -/
def sendCheck (st : NetState) (requester addressee : Nat) :
    Except NetErr (Option Connection) :=
  if requester == addressee then .error .cannotConnectSelf
  else if !(st.users.any fun u => u.id == addressee && u.is_active) then
    .error .userNotFound
  else .ok (findExistingConnection st.connections requester addressee)

/-- The act phase of `send_connection_request`, applied to the current
store but branching on the snapshot read by `sendCheck`.  A fresh insert
is subject to the ordered-pair unique constraint at flush time. -/
def sendAct (st : NetState) (requester addressee : Nat) (message : Option String)
    (now newId : Nat) (snapshot : Option Connection) :
    NetState × Except NetErr (Except DbErr Connection) :=
  match snapshot with
  | some c =>
    match c.status with
    | .accepted => (st, .error .alreadyConnected)
    | .pending => (st, .error .alreadyPending)
    | .declined =>
      let c1 : Connection :=
        { c with
          status := .pending
          requester_id := requester
          addressee_id := addressee
          message := message
          requested_at := now
          responded_at := none }
      ({ st with
          connections := st.connections.map fun x => if x.id == c.id then c1 else x },
        .ok (.ok c1))
  | none =>
    if st.connections.any (fun c =>
        c.requester_id == requester && c.addressee_id == addressee) then
      (st, .ok (.error .uniqueViolation))
    else
      let c : Connection :=
        { id := newId
          requester_id := requester
          addressee_id := addressee
          status := .pending
          message := message
          requested_at := now
          responded_at := none }
      ({ st with connections := st.connections ++ [c] }, .ok (.ok c))

/-- The interleaving `check₁ ; check₂ ; act₁ ; act₂` of
`send_connection_request(a, b)` (call 1) and
`send_connection_request(b, a)` (call 2): both duplicate checks run
before either write.  Returns the final store and both call results. -/
def raceOppositeSends (st : NetState) (a b : Nat)
    (msg1 msg2 : Option String) (now1 now2 id1 id2 : Nat) :
    NetState × Except NetErr (Except DbErr Connection) ×
      Except NetErr (Except DbErr Connection) :=
  match sendCheck st a b with
  | .error e1 =>
    match sendCheck st b a with
    | .error e2 => (st, .error e1, .error e2)
    | .ok snap2 =>
      let r2 := sendAct st b a msg2 now2 id2 snap2
      (r2.1, .error e1, r2.2)
  | .ok snap1 =>
    match sendCheck st b a with
    | .error e2 =>
      let r1 := sendAct st a b msg1 now1 id1 snap1
      (r1.1, r1.2, .error e2)
    | .ok snap2 =>
      let r1 := sendAct st a b msg1 now1 id1 snap1
      let r2 := sendAct r1.1 b a msg2 now2 id2 snap2
      (r2.1, r1.2, r2.2)

/-- Number of active (pending or accepted) connection rows between the
unordered pair `{a, b}` (spec §3 invariant). -/
def activePairCount (st : NetState) (a b : Nat) : Nat :=
  (st.connections.filter fun c =>
    ((c.requester_id == a && c.addressee_id == b) ||
     (c.requester_id == b && c.addressee_id == a)) &&
    (c.status == ConnStatus.pending || c.status == ConnStatus.accepted)).length

/-! ### The graph mirror store

`Neo4jClient.create_connection_request` (`src/database/neo4j.py` lines
164-185) runs

```
MATCH (requester:User ...) MATCH (addressee:User ...)
MERGE (requester)-[r:CONNECTED_TO]->(addressee)
SET r.status = 'pending', r.message = $message, r.requested_at = datetime()
```

`MERGE` on a *directed* relationship pattern matches an existing
`requester → addressee` edge and otherwise creates one; `SET` then
applies to every matched edge.  If either `MATCH` finds no node the query
produces no rows and writes nothing. -/

/-- A `CONNECTED_TO` relationship in the mirror store. -/
structure GraphEdgeRec where
  src : Nat
  dst : Nat
  status : ConnStatus
  message : Option String
  requested_at : Nat
deriving DecidableEq, Repr

/-- The mirror store: `User` nodes and `CONNECTED_TO` relationships. -/
structure GraphStore where
  userNodes : List Nat
  edges : List GraphEdgeRec
deriving DecidableEq, Repr

/-- Embeds `Neo4jClient.create_connection_request`: directed `MERGE` keyed by
the ordered `(requester, addressee)` pair, then `SET` of the pending
properties; a no-op when either endpoint node is missing. -/
def createConnectionRequestGraph (g : GraphStore) (requester addressee : Nat)
    (message : Option String) (now : Nat) : GraphStore :=
  if requester ∈ g.userNodes ∧ addressee ∈ g.userNodes then
    if g.edges.any (fun e => e.src == requester && e.dst == addressee) then
      { g with
        edges := g.edges.map fun e =>
          if e.src == requester && e.dst == addressee then
            { e with status := .pending, message := message, requested_at := now }
          else e }
    else
      { g with
        edges := g.edges ++
          [{ src := requester, dst := addressee, status := .pending,
             message := message, requested_at := now }] }
  else g

/-- Number of `CONNECTED_TO` edges directed `a → b` in the mirror. -/
def orderedEdgeCount (g : GraphStore) (a b : Nat) : Nat :=
  (g.edges.filter fun e => e.src == a && e.dst == b).length

/-- Number of `CONNECTED_TO` edges between the unordered pair `{a, b}`
in the mirror. -/
def pairEdgeCount (g : GraphStore) (a b : Nat) : Nat :=
  (g.edges.filter fun e =>
    (e.src == a && e.dst == b) || (e.src == b && e.dst == a)).length

/-! ### Path finding (`GraphService.find_path`, `src/graph/service.py`
lines 678-843)

The relational BFS.  Inputs are the tables the function reads: the
`users ⟕ user_profiles` rows, the `connections` rows and the
`user_skills ⋈ skills` rows (one `(user_id, skill_name)` pair per
user-skill row). -/

/-- A row of the `users LEFT JOIN user_profiles` lookup used by
`find_path`. -/
structure DbUser where
  id : Nat
  username : String
  full_name : Option String
  profile_image_url : Option String
deriving DecidableEq, Repr

/-- Embeds `PathNode` (`src/graph/schemas.py` lines 171-176). -/
structure PathNode where
  id : Nat
  type : String
  label : String
  image_url : Option String
deriving DecidableEq, Repr

/-- Embeds `PathEdge` (`src/graph/schemas.py` lines 179-184). -/
structure PathEdge where
  source : Nat
  target : Nat
  type : String
  label : Option String
deriving DecidableEq, Repr

/-- Embeds `PathResult` (`src/graph/schemas.py` lines 187-193). -/
structure PathResult where
  found : Bool
  path : List PathNode
  edges : List PathEdge
  length : Nat
  relationship_types : List String
deriving DecidableEq, Repr

/-- Embeds `PathResult(found=False, length=0)` with the schema defaults. -/
def PathResult.noPath : PathResult :=
  { found := false, path := [], edges := [], length := 0, relationship_types := [] }

/-- Python truthiness of `a or b` on an optional string (`full_name or
username`): an absent or empty `full_name` falls back to `username`. -/
def pyOr (a : Option String) (b : String) : String :=
  match a with
  | some s => if s == "" then b else s
  | none => b

/-- Embeds `rel_type.split("_")[0] if "_" in rel_type else rel_type`
(`src/graph/service.py` line 821). -/
def baseTypeOf (relType : String) : String :=
  if relType.contains '_' then (relType.splitOn "_").headD relType else relType

/-- Python `str.title()` on a word: first character upper-cased, the
rest lower-cased. -/
def capitalizeWord (s : String) : String :=
  match s.toList with
  | [] => ""
  | c :: rest => String.mk (c.toUpper :: rest.map Char.toLower)

/-- Embeds `base_type.replace("_", " ").title()` (`src/graph/service.py` line
826) applied to a base type (which contains no underscore): title-case
each space-separated word. -/
def titleCase (s : String) : String :=
  String.intercalate " " ((s.splitOn " ").map capitalizeWord)

/-- The shared-skill join (`src/graph/service.py` lines 747-761): rows
`(us1.user_id, us2.user_id, skill_name)` over pairs of `user_skills`
rows on the same skill with distinct users, where `us1.user_id` is the
source or the target. -/
def sharedSkillRows (skills : List (Nat × String)) (sourceId targetId : Nat) :
    List (Nat × Nat × String) :=
  (skills.filter fun r => r.1 == sourceId || r.1 == targetId).flatMap fun r1 =>
    (skills.filter fun r2 => r2.2 == r1.2 && !(r2.1 == r1.1)).map fun r2 =>
      (r1.1, r2.1, r1.2)

/-- Adjacency entries contributed to `adjacency[u]` by one accepted
connection row (lines 734-744): the row adds the addressee to the
requester's list and the requester to the addressee's list. -/
def connectionNeighborEntries (u : Nat) (c : Nat × Nat) : List (Nat × String) :=
  (if c.1 == u then [(c.2, "CONNECTED_TO")] else []) ++
  (if c.2 == u then [(c.1, "CONNECTED_TO")] else [])

/-- Adjacency entries contributed to `adjacency[u]` by one shared-skill
row (lines 763-772), tagged `SHARED_SKILL_<name>`. -/
def skillNeighborEntries (u : Nat) (r : Nat × Nat × String) : List (Nat × String) :=
  (if r.1 == u then [(r.2.1, "SHARED_SKILL_" ++ r.2.2)] else []) ++
  (if r.2.1 == u then [(r.1, "SHARED_SKILL_" ++ r.2.2)] else [])

/-- Embeds `adjacency[u]`: connection entries first (in `connections` row
order), then shared-skill entries (in join row order), matching the
append order of the Python dict-of-lists. -/
def neighborsOf (conns : List (Nat × Nat)) (rows : List (Nat × Nat × String))
    (u : Nat) : List (Nat × String) :=
  conns.flatMap (connectionNeighborEntries u) ++ rows.flatMap (skillNeighborEntries u)

/-- Embeds `u in adjacency`: `u` received a dict key, i.e. it is an endpoint of
some connection row or of some shared-skill row. -/
def adjacencyHasNode (conns : List (Nat × Nat)) (rows : List (Nat × Nat × String))
    (u : Nat) : Bool :=
  conns.any (fun c => c.1 == u || c.2 == u) ||
  rows.any (fun r => r.1 == u || r.2.1 == u)

/-- One queue entry `(current, path, edge_types)` (line 781). -/
structure BfsEntry where
  current : Nat
  path : List Nat
  edgeTypes : List String
deriving DecidableEq, Repr

/-- The inner `for neighbor, rel_type in adjacency.get(current, [])`
loop (lines 790-841): either returns the found final path and edge-type
list (when a neighbor equals the target), or returns the grown visited
set and the entries appended to the queue. -/
def processNeighbors (targetId : Nat) (path : List Nat) (edgeTypes : List String) :
    List (Nat × String) → List Nat → List BfsEntry →
      Option (List Nat × List String) × List Nat × List BfsEntry
  | [], visited, acc => (none, visited, acc)
  | (n, rel) :: rest, visited, acc =>
    if n == targetId then (some (path ++ [n], edgeTypes ++ [rel]), visited, acc)
    else if visited.contains n then processNeighbors targetId path edgeTypes rest visited acc
    else
      processNeighbors targetId path edgeTypes rest (visited ++ [n])
        (acc ++ [{ current := n, path := path ++ [n], edgeTypes := edgeTypes ++ [rel] }])

/-- The `while queue:` loop (lines 784-843).  `fuel` bounds the number
of iterations; `none` means the fuel ran out (never claimed as a
result), `some none` means the queue emptied without finding the target,
`some (some (path, types))` is the found path. -/
def bfsLoop (adj : Nat → List (Nat × String)) (targetId maxDepth : Nat) :
    Nat → List BfsEntry → List Nat → Option (Option (List Nat × List String))
  | 0, _, _ => none
  | _ + 1, [], _ => some none
  | fuel + 1, e :: rest, visited =>
    if e.path.length > maxDepth + 1 then bfsLoop adj targetId maxDepth fuel rest visited
    else
      match processNeighbors targetId e.path e.edgeTypes (adj e.current) visited [] with
      | (some found, _, _) => some (some found)
      | (none, visited1, newEntries) =>
        bfsLoop adj targetId maxDepth fuel (rest ++ newEntries) visited1

/-- Path-node construction for the found path (lines 796-816): each id
is looked up in the users table; missing users are silently skipped. -/
def buildPathNodes (users : List DbUser) (finalPath : List Nat) : List PathNode :=
  finalPath.filterMap fun uid =>
    match users.find? (fun u => u.id == uid) with
    | some u =>
      some { id := uid, type := "user", label := pyOr u.full_name u.username,
             image_url := u.profile_image_url }
    | none => none

/-- Path-edge construction (lines 818-829). -/
def buildPathEdges (finalPath : List Nat) (finalEdgeTypes : List String) : List PathEdge :=
  (finalEdgeTypes.enum).map fun p =>
    { source := finalPath.getD p.1 0
      target := finalPath.getD (p.1 + 1) 0
      type := p.2
      label := some (titleCase ((baseTypeOf p.2).replace "_" " ")) }

/-- The `unique_rel_types` accumulation (lines 819-829): base types in
first-occurrence order. -/
def uniqueRelTypes (finalEdgeTypes : List String) : List String :=
  finalEdgeTypes.foldl
    (fun acc rel => if acc.contains (baseTypeOf rel) then acc else acc ++ [baseTypeOf rel]) []

/-- Embeds `GraphService.find_path` (`src/graph/service.py` lines 678-843).
`users` are the `users ⟕ user_profiles` rows, `conns` the `connections`
table, `skills` the `(user_id, skill_name)` rows of
`user_skills ⋈ skills`.  Returns `none` only if the loop fuel runs out;
the fuel `2 + 2·|accepted| + 2·|sharedRows|` exceeds the number of
possible iterations (one plus the number of enqueued entries, each
enqueued node being a distinct endpoint). -/
def find_path (users : List DbUser) (conns : List Connection)
    (skills : List (Nat × String)) (sourceId targetId maxDepth : Nat) :
    Option PathResult :=
  if sourceId == targetId then
    match users.find? (fun u => u.id == sourceId) with
    | some u =>
      some { found := true
             path := [{ id := sourceId, type := "user",
                        label := pyOr u.full_name u.username,
                        image_url := u.profile_image_url }]
             edges := [], length := 0, relationship_types := [] }
    | none => some PathResult.noPath
  else
    let accepted := (conns.filter fun c => c.status == ConnStatus.accepted).map
      fun c => (c.requester_id, c.addressee_id)
    let rows := sharedSkillRows skills sourceId targetId
    if !(adjacencyHasNode accepted rows sourceId) then some PathResult.noPath
    else
      let fuel := 2 + 2 * accepted.length + 2 * rows.length
      match bfsLoop (neighborsOf accepted rows) targetId maxDepth fuel
          [{ current := sourceId, path := [sourceId], edgeTypes := [] }] [sourceId] with
      | none => none
      | some none => some PathResult.noPath
      | some (some (finalPath, finalEdgeTypes)) =>
        some { found := true
               path := buildPathNodes users finalPath
               edges := buildPathEdges finalPath finalEdgeTypes
               length := finalPath.length - 1
               relationship_types := uniqueRelTypes finalEdgeTypes }

/-! ### Ecosystem graph assembly (`GraphService._get_ecosystem_graph`,
`src/graph/service.py` lines 104-221)

The Cypher query returns one row with the center user, the connected
users, and the center's skills / communities / events.  The builder then
appends nodes and edges in that order and truncates the node list with
`nodes[:limit]`.  The `properties` dicts carried by nodes are not
modelled (no claim consults them); the identifying and decorating fields
are. -/

/-- A `User` node dict as returned by the mirror store. -/
structure N4User where
  id : String
  username : String
  full_name : Option String
  profile_image_url : Option String
  location : Option String
deriving DecidableEq, Repr

/-- A `Skill` node dict. -/
structure N4Skill where
  id : String
  name : String
  category : Option String
deriving DecidableEq, Repr

/-- A `Community` node dict. -/
structure N4Community where
  id : String
  name : String
  category : Option String
  slug : Option String
  member_count : Nat
  image_url : Option String
deriving DecidableEq, Repr

/-- An `Event` node dict. -/
structure N4Event where
  id : String
  name : String
  event_type : Option String
  start_datetime : Option String
  location_city : Option String
  image_url : Option String
deriving DecidableEq, Repr

/-- Embeds `GraphNode` (`src/graph/schemas.py` lines 14-24), without the
untyped `properties` dict. -/
structure GraphNode where
  id : String
  type : String
  label : String
  size : Option ℚ
  color : Option String
  image_url : Option String
  cluster : Option Nat
deriving DecidableEq, Repr

/-- Embeds `GraphEdge` (`src/graph/schemas.py` lines 30-37). -/
structure AsmEdge where
  id : String
  source : String
  target : String
  type : String
  weight : Option ℚ
  label : Option String
deriving DecidableEq, Repr

/-- Embeds `GraphService._user_to_node` (`src/graph/service.py` lines 570-584). -/
def userToNode (u : N4User) (isCurrent : Bool) : GraphNode :=
  { id := u.id
    type := "user"
    label := pyOr u.full_name u.username
    size := some (if isCurrent then 3/2 else 1)
    color := some (if isCurrent then "#0969da" else "#0969da")
    image_url := u.profile_image_url
    cluster := none }

/-- Embeds `GraphService._skill_to_node` (lines 586-596). -/
def skillToNode (s : N4Skill) : GraphNode :=
  { id := s.id, type := "skill", label := s.name,
    size := none, color := some "#2da44e", image_url := none, cluster := none }

/-- Embeds `GraphService._community_to_node` (lines 598-611). -/
def communityToNode (c : N4Community) : GraphNode :=
  { id := c.id, type := "community", label := c.name,
    size := none, color := some "#8250df", image_url := c.image_url, cluster := none }

/-- Embeds `GraphService._event_to_node` (lines 613-626). -/
def eventToNode (e : N4Event) : GraphNode :=
  { id := e.id, type := "event", label := e.name,
    size := none, color := some "#bf8700", image_url := e.image_url, cluster := none }

/-- The single row returned by the ecosystem Cypher query (lines
113-144); `MATCH (center ...)` guarantees the center is present whenever
a row exists. -/
structure EcosystemRow where
  center : N4User
  connectedUsers : List N4User
  skills : List N4Skill
  communities : List N4Community
  events : List N4Event
deriving Repr

/-- Node and edge lists assembled by the four `for` loops of
`_get_ecosystem_graph` (lines 149-204), appended in source order:
center, connected users, skills, communities, events. -/
def ecosystemAssemble (row : EcosystemRow) : List GraphNode × List AsmEdge :=
  let acc0 : List GraphNode × List AsmEdge := ([userToNode row.center true], [])
  let acc1 := row.connectedUsers.foldl (fun acc u =>
    (acc.1 ++ [userToNode u false],
     acc.2 ++ [{ id := "conn_" ++ row.center.id ++ "_" ++ u.id,
                 source := row.center.id, target := u.id,
                 type := "CONNECTED_TO", weight := none,
                 label := some "Connected" }])) acc0
  let acc2 := row.skills.foldl (fun acc s =>
    (acc.1 ++ [skillToNode s],
     acc.2 ++ [{ id := "skill_" ++ row.center.id ++ "_" ++ s.id,
                 source := row.center.id, target := s.id,
                 type := "HAS_SKILL", weight := none,
                 label := some "Has Skill" }])) acc1
  let acc3 := row.communities.foldl (fun acc c =>
    (acc.1 ++ [communityToNode c],
     acc.2 ++ [{ id := "member_" ++ row.center.id ++ "_" ++ c.id,
                 source := row.center.id, target := c.id,
                 type := "MEMBER_OF", weight := none,
                 label := some "Member Of" }])) acc2
  row.events.foldl (fun acc e =>
    (acc.1 ++ [eventToNode e],
     acc.2 ++ [{ id := "attending_" ++ row.center.id ++ "_" ++ e.id,
                 source := row.center.id, target := e.id,
                 type := "ATTENDING", weight := none,
                 label := some "Attending" }])) acc3

/-- Embeds `_get_ecosystem_graph` after assembly: the optional node-type filter
(lines 206-210), then `nodes[:limit]` in the response (line 213); edges
are not truncated. -/
def getEcosystemGraph (row : EcosystemRow) (nodeTypesFilter : Option (List String))
    (userId : String) (lim : Nat) : List GraphNode × List AsmEdge :=
  let asm := ecosystemAssemble row
  let filtered : List GraphNode × List AsmEdge :=
    match nodeTypesFilter with
    | some nts =>
      let nodes2 := asm.1.filter fun (n : GraphNode) => nts.contains n.type || n.id == userId
      let ids := nodes2.map fun n => n.id
      (nodes2, asm.2.filter fun (e : AsmEdge) => ids.contains e.source && ids.contains e.target)
    | none => asm
  (filtered.1.take lim, filtered.2)

/-! ### Skill-based clustering (`GraphService.get_clustered_graph`,
`src/graph/service.py` lines 847-966)

The clustering portion: user → skill-set map from the `user_skills`
query rows, grouping by one arbitrarily chosen skill per user
(`list(skills)[0]` over a Python set, modelled by an arbitrary selection
function `choose`), dropping groups smaller than `min_cluster_size`,
and annotating nodes.  Node ids here are the string ids of the assembled
graph. -/

/-- Embeds `Cluster` (`src/graph/schemas.py` lines 205-212). -/
structure Cluster where
  id : Nat
  label : String
  color : String
  node_ids : List String
  dominant_type : Option String
  top_skills : List String
  size : Nat
deriving DecidableEq, Repr

/-- One step of building `user_skill_map` (lines 903-908): `dict` of
`set`s — adding a skill to a user's set, creating the entry on first
sight.  (The set is modelled as an insertion-ordered duplicate-free
list.) -/
def addUserSkill (m : List (String × List String)) (uid s : String) :
    List (String × List String) :=
  if m.any (fun p => p.1 == uid) then
    m.map fun p =>
      if p.1 == uid then (p.1, if p.2.contains s then p.2 else p.2 ++ [s]) else p
  else m ++ [(uid, [s])]

/-- Embeds `user_skill_map` built from the `user_skills` query rows in row
order (lines 903-908). -/
def buildUserSkillMap (rows : List (String × String)) : List (String × List String) :=
  rows.foldl (fun m r => addUserSkill m r.1 r.2) []

/-- One step of building `skill_clusters` (lines 911-916): append a
user id to the bucket of a skill, creating the bucket on first sight. -/
def addToCluster (sc : List (String × List String)) (skill uid : String) :
    List (String × List String) :=
  if sc.any (fun p => p.1 == skill) then
    sc.map fun p => if p.1 == skill then (p.1, p.2 ++ [uid]) else p
  else sc ++ [(skill, [uid])]

/-- Embeds `skill_clusters` (lines 911-916): each user contributes its id to
the bucket of its primary skill, `list(skills)[0] if skills else
"Other"`; the arbitrary set-iteration choice is the parameter
`choose`. -/
def buildSkillClusters (choose : List String → String)
    (m : List (String × List String)) : List (String × List String) :=
  m.foldl (fun sc p => addToCluster sc (if p.2.isEmpty then "Other" else choose p.2) p.1) []

/-- Embeds `valid_clusters` (lines 919-923): buckets of at least
`min_cluster_size` members. -/
def validClusters (minClusterSize : Nat) (sc : List (String × List String)) :
    List (String × List String) :=
  sc.filter fun p => minClusterSize ≤ p.2.length

/-- Embeds `cluster_colors` (lines 926-929). -/
def clusterColors : List String :=
  ["#0969da", "#2da44e", "#8250df", "#bf8700", "#cf222e",
   "#0550ae", "#1a7f37", "#6639ba", "#9a6700", "#a40e26"]

/-- The `clusters` list (lines 931-944): one `Cluster` per surviving
bucket, ids by enumeration order, colors cycling through the palette. -/
def buildClusters (valid : List (String × List String)) : List Cluster :=
  valid.enum.map fun p =>
    { id := p.1
      label := p.2.1
      color := clusterColors.getD (p.1 % clusterColors.length) ""
      node_ids := p.2.2
      dominant_type := some "user"
      top_skills := [p.2.1]
      size := p.2.2.length }

/-- Dict write with overwrite (used for `node_cluster_map`). -/
def upsertNat (m : List (String × Nat)) (k : String) (v : Nat) : List (String × Nat) :=
  if m.any (fun p => p.1 == k) then
    m.map fun p => if p.1 == k then (p.1, v) else p
  else m ++ [(k, v)]

/-- Embeds `node_cluster_map` (lines 932-946): every member of a surviving
bucket maps to that bucket's cluster id. -/
def buildNodeClusterMap (valid : List (String × List String)) : List (String × Nat) :=
  valid.enum.foldl (fun m p => p.2.2.foldl (fun m2 uid => upsertNat m2 uid p.1) m) []

/-- Dict lookup. -/
def lookupStr (m : List (String × Nat)) (k : String) : Option Nat :=
  (m.find? fun p => p.1 == k).map fun p => p.2

/-- The node update of lines 949-954: set `cluster` when the id is in
`node_cluster_map`, leave the node untouched otherwise. -/
def updateNodeCluster (ncm : List (String × Nat)) (n : GraphNode) : GraphNode :=
  match lookupStr ncm n.id with
  | some cid => { n with cluster := some cid }
  | none => n

/-- The final `node_cluster_map` of `get_clustered_graph` for given
query rows, selection order and minimum size. -/
def clusteredNodeMap (choose : List String → String) (rows : List (String × String))
    (minClusterSize : Nat) : List (String × Nat) :=
  buildNodeClusterMap (validClusters minClusterSize
    (buildSkillClusters choose (buildUserSkillMap rows)))

/-- The clustering-relevant output of `get_clustered_graph` (lines
902-966): the updated nodes and the cluster list. -/
structure ClusteredResult where
  nodes : List GraphNode
  clusters : List Cluster
deriving Repr

/-- Embeds `get_clustered_graph`, clustering portion: `nodes` are the base
ecosystem-graph nodes, `rows` the `(user_id, skill_name)` rows of the
skills query (lines 893-900). -/
def getClusteredGraph (choose : List String → String) (nodes : List GraphNode)
    (rows : List (String × String)) (minClusterSize : Nat) : ClusteredResult :=
  let valid := validClusters minClusterSize
    (buildSkillClusters choose (buildUserSkillMap rows))
  { nodes := nodes.map (updateNodeCluster (buildNodeClusterMap valid))
    clusters := buildClusters valid }

/-! ### Similarity engine (`src/graph/similarity_service.py`)

`compute_user_similarities` (lines 32-81) runs the embedding signal
(a pgvector SQL query — its result list is a parameter here, since
cosine distance over stored vectors is computed by the external store),
then merges in the skill signal (`_find_skill_similar`, lines 135-200)
and the community signal (`_find_community_similar`, lines 202-250),
sorts by score descending, deduplicates by user id and truncates.
Scores are `ℚ` (`1.2` is `6/5`, `0.3` is `3/10`, the merge weights are
`3/5` and `2/5`). -/

/-- A row of `users` as the similarity queries read it. -/
structure SimUser where
  id : Nat
  is_active : Bool
  username : String
deriving DecidableEq, Repr

/-- A row of `user_profiles` as the similarity queries read it. -/
structure ProfileRow where
  user_id : Nat
  full_name : Option String
  profile_image_url : Option String
  location : Option String
  show_in_graph : Option Bool
deriving DecidableEq, Repr

/-- The relational tables consumed by the similarity engine.
`user_skills` rows are `(user_id, skill_id)`, `skills` rows are
`(id, name)`, `embeddings` rows are `(user_id, hasTruthyEmbedding)`
(modelling `ProfileEmbedding` presence and `user_embedding.embedding`
truthiness), `communityMembers` rows are `(community_id, user_id)` and
`communities` rows are `(id, name)`. -/
structure SimTables where
  users : List SimUser
  profiles : List ProfileRow
  user_skills : List (Nat × Nat)
  skills : List (Nat × String)
  embeddings : List (Nat × Bool)
  communityMembers : List (Nat × Nat)
  communities : List (Nat × String)
deriving Repr

/-- Embeds `SimilarProfile` (`src/graph/schemas.py` lines 95-105). -/
structure SimilarProfile where
  user_id : Nat
  username : String
  full_name : Option String
  profile_image_url : Option String
  location : Option String
  similarity_score : ℚ
  shared_skills : List String
  shared_communities : List String
  similarity_reasons : List String
deriving DecidableEq, Repr

/-- The profile-visibility condition
`up.show_in_graph = true OR up.show_in_graph IS NULL` under the
`LEFT JOIN`: a missing profile row or a NULL column passes. -/
def graphVisible (profiles : List ProfileRow) (uid : Nat) : Bool :=
  match profiles.find? (fun p => p.user_id == uid) with
  | none => true
  | some p =>
    match p.show_in_graph with
    | some b => b
    | none => true

/-- Embeds `user_skill_ids` (lines 143-149): the queried user's skill ids, one
per `UserSkill` row. -/
def userSkillIds (t : SimTables) (uid : Nat) : List Nat :=
  (t.user_skills.filter fun r => r.1 == uid).map fun r => r.2

/-- The distinct skill ids a candidate shares with the queried user
(`COUNT(DISTINCT us.skill_id)` over the candidate's rows restricted to
`skill_id = ANY(:skill_ids)`). -/
def sharedSkillIdsWith (t : SimTables) (uid other : Nat) : List Nat :=
  (((t.user_skills.filter fun r => r.1 == other).map fun r => r.2).filter
    fun sid => (userSkillIds t uid).contains sid).dedup

/-- Embeds `ARRAY_AGG(DISTINCT s.name)` over the shared skills. -/
def sharedSkillNames (t : SimTables) (uid other : Nat) : List String :=
  ((sharedSkillIdsWith t uid other).filterMap fun sid =>
    ((t.skills.find? fun s => s.1 == sid).map fun s => s.2)).dedup

/-- The distinct community ids a candidate shares with the queried user
(the `cm1`/`cm2` join of `_find_community_similar`). -/
def sharedCommunityIds (t : SimTables) (uid other : Nat) : List Nat :=
  (((t.communityMembers.filter fun r => r.2 == other).map fun r => r.1).filter
    fun cid => t.communityMembers.any fun r => r.1 == cid && r.2 == uid).dedup

/-- Embeds `ARRAY_AGG(DISTINCT c.name)` over the shared communities. -/
def sharedCommunityNames (t : SimTables) (uid other : Nat) : List String :=
  ((sharedCommunityIds t uid other).filterMap fun cid =>
    ((t.communities.find? fun c => c.1 == cid).map fun c => c.2)).dedup

/-- Stable insertion into a list sorted descending by an integer key
(the `ORDER BY shared_count DESC` of the SQL queries): the new element
goes after every element with an equal or larger key. -/
def insertByCountDesc {α : Type} (key : α → Nat) (p : α) : List α → List α
  | [] => [p]
  | q :: rest =>
    if key p < key q then q :: insertByCountDesc key p rest else p :: q :: rest

/-- Stable descending sort by an integer key (`ORDER BY ... DESC` on an
integer aggregate; ties keep table order). -/
def sortByCountDesc {α : Type} (key : α → Nat) (l : List α) : List α :=
  l.foldr (insertByCountDesc key) []

/-- Stable insertion into a list sorted descending by score. -/
def insertByDesc {α : Type} (key : α → ℚ) (p : α) : List α → List α
  | [] => [p]
  | q :: rest => if key p < key q then q :: insertByDesc key p rest else p :: q :: rest

/-- Stable descending sort by score (Python
`sorted(..., key=lambda p: p.similarity_score, reverse=True)` is
stable). -/
def sortByDesc {α : Type} (key : α → ℚ) (l : List α) : List α :=
  l.foldr (insertByDesc key) []

/-- The `SimilarProfile` built for one row of the skill-overlap query
(lines 185-198): `overlap = shared_count / total_skills`,
`score = min(overlap * 1.2, 1.0)`. -/
def mkSkillProfile (t : SimTables) (uid : Nat) (u : SimUser) : SimilarProfile :=
  let prof := t.profiles.find? fun p => p.user_id == u.id
  let sharedCount := (sharedSkillIdsWith t uid u.id).length
  let totalSkills := (userSkillIds t uid).length
  let overlap : ℚ := if 0 < totalSkills then (sharedCount : ℚ) / (totalSkills : ℚ) else 0
  { user_id := u.id
    username := u.username
    full_name := prof.bind fun p => p.full_name
    profile_image_url := prof.bind fun p => p.profile_image_url
    location := prof.bind fun p => p.location
    similarity_score := min (overlap * (6 / 5)) 1
    shared_skills := sharedSkillNames t uid u.id
    shared_communities := []
    similarity_reasons := [toString sharedCount ++ " shared skills"] }

/-- The candidate filter of the skill-overlap SQL (lines 155-176):
active, not the queried user, graph-visible, and — via
`HAVING COUNT(DISTINCT us.skill_id) >= 2` — sharing at least two
distinct skills. -/
def skillCandidateFilter (t : SimTables) (uid : Nat) (u : SimUser) : Bool :=
  u.is_active && !(u.id == uid) && graphVisible t.profiles u.id &&
    decide (2 ≤ (sharedSkillIdsWith t uid u.id).length)

/-- Embeds `_find_skill_similar` (lines 135-200): empty when the queried user
has no skills; otherwise the qualifying users ordered by shared count
descending, truncated to `limit`, one profile per row. -/
def find_skill_similar (t : SimTables) (uid lim : Nat) : List SimilarProfile :=
  if (userSkillIds t uid).isEmpty then []
  else
    let cands := t.users.filter (skillCandidateFilter t uid)
    ((sortByCountDesc (fun u => (sharedSkillIdsWith t uid u.id).length) cands).take
      lim).map (mkSkillProfile t uid)

/-- The `SimilarProfile` built for one row of the community-overlap
query (lines 237-248): `score = min(shared_count * 0.3, 1.0)`. -/
def mkCommunityProfile (t : SimTables) (uid : Nat) (u : SimUser) : SimilarProfile :=
  let prof := t.profiles.find? fun p => p.user_id == u.id
  let sharedCount := (sharedCommunityIds t uid u.id).length
  { user_id := u.id
    username := u.username
    full_name := prof.bind fun p => p.full_name
    profile_image_url := prof.bind fun p => p.profile_image_url
    location := prof.bind fun p => p.location
    similarity_score := min ((sharedCount : ℚ) * (3 / 10)) 1
    shared_skills := []
    shared_communities := sharedCommunityNames t uid u.id
    similarity_reasons := ["Member of " ++ toString sharedCount ++ " same communities"] }

/-- Embeds `_find_community_similar` (lines 202-250): users sharing at least
one community (the inner join on `cm1` requires one), active, visible,
ordered by shared count descending, truncated to `limit`. -/
def find_community_similar (t : SimTables) (uid lim : Nat) : List SimilarProfile :=
  let cands := t.users.filter fun u =>
    u.is_active && !(u.id == uid) && graphVisible t.profiles u.id &&
      decide (1 ≤ (sharedCommunityIds t uid u.id).length)
  ((sortByCountDesc (fun u => (sharedCommunityIds t uid u.id).length) cands).take
    lim).map (mkCommunityProfile t uid)

/-- Combination of an accumulator entry with an incoming profile for
the same user (`_merge_similarities`, lines 260-274):
`combined = existing*0.6 + incoming*0.4` clamped at 1, lists unioned
(Python `list(set(...))`, modelled as deduplicated concatenation),
reasons concatenated. -/
def combineProfiles (q p : SimilarProfile) : SimilarProfile :=
  { q with
    similarity_score := min (q.similarity_score * (3 / 5) + p.similarity_score * (2 / 5)) 1
    shared_skills := (q.shared_skills ++ p.shared_skills).dedup
    shared_communities := (q.shared_communities ++ p.shared_communities).dedup
    similarity_reasons := q.similarity_reasons ++ p.similarity_reasons }

/-- Dict write keeping the first-seen position (Python dict update). -/
def dictInsertProfile (m : List SimilarProfile) (p : SimilarProfile) :
    List SimilarProfile :=
  if m.any (fun q => q.user_id == p.user_id) then
    m.map fun q => if q.user_id == p.user_id then p else q
  else m ++ [p]

/-- Embeds `_merge_similarities` (lines 252-278): build the accumulator dict
from `existing`, then fold the new profiles in, combining scores for
users already present. -/
def merge_similarities (existing newProfiles : List SimilarProfile) :
    List SimilarProfile :=
  let m0 := existing.foldl dictInsertProfile []
  newProfiles.foldl (fun m p =>
    if m.any (fun q => q.user_id == p.user_id) then
      m.map fun q => if q.user_id == p.user_id then combineProfiles q p else q
    else m ++ [p]) m0

/-- The final dedup-by-user pass (lines 70-75): first occurrence in the
sorted order wins. -/
def dedupByUser (l : List SimilarProfile) : List SimilarProfile :=
  l.foldl (fun acc p =>
    if acc.any (fun q => q.user_id == p.user_id) then acc else acc ++ [p]) []

/-- Embeds `compute_user_similarities` (lines 32-81).  `semanticSimilar` is
the result list of `_find_semantic_similar` (the pgvector query, already
filtered by `min_similarity` server-side); it enters the pipeline only
when the queried user has a truthy embedding row.  `minSimilarity` is
consulted nowhere else — skill and community candidates are never
filtered by it. -/
def compute_user_similarities (t : SimTables) (uid : Nat) (minSimilarity : ℚ)
    (lim : Nat) (semanticSimilar : List SimilarProfile) : List SimilarProfile :=
  let base : List SimilarProfile :=
    match t.embeddings.find? (fun r => r.1 == uid) with
    | some r => if r.2 then semanticSimilar else []
    | none => []
  let afterSkill := merge_similarities base (find_skill_similar t uid lim)
  let afterCommunity := merge_similarities afterSkill (find_community_similar t uid lim)
  (dedupByUser (sortByDesc (fun p => p.similarity_score) afterCommunity)).take lim

/-- The spec §8 similarity example: user 1 has skills `Python` and
`SQL`; users 2..5 are active, profile-less (hence graph-visible), each
share exactly those two skills, and no user has an embedding row or a
community membership. -/
def exampleSimTables : SimTables :=
  { users := [⟨1, true, "u1"⟩, ⟨2, true, "u2"⟩, ⟨3, true, "u3"⟩,
              ⟨4, true, "u4"⟩, ⟨5, true, "u5"⟩]
    profiles := []
    user_skills := [(1, 10), (1, 11), (2, 10), (2, 11), (3, 10), (3, 11),
                    (4, 10), (4, 11), (5, 10), (5, 11)]
    skills := [(10, "Python"), (11, "SQL")]
    embeddings := []
    communityMembers := []
    communities := [] }

/-- Decidable equality for `Except` results (for evaluating the
embedding on concrete inputs). -/
instance {ε α : Type} [DecidableEq ε] [DecidableEq α] : DecidableEq (Except ε α) := by
  intro a b
  cases a <;> cases b
  case error.error e1 e2 =>
    exact if h : e1 = e2 then isTrue (by rw [h]) else isFalse (by simp [h])
  case error.ok e1 x2 => exact isFalse (by simp)
  case ok.error x1 e2 => exact isFalse (by simp)
  case ok.ok x1 x2 =>
    exact if h : x1 = x2 then isTrue (by rw [h]) else isFalse (by simp [h])

/-! ## Theorems -/

/-- Claim C1, counterexample to the claim as stated: in a store holding
the pending connection `1` from requester `10` to addressee `20`,
`accept` called by the requester `10` does not fail with an
Authorization error — it fails with the NotFound error
`"Connection request not found"`, because the lookup query itself
filters on `addressee_id == user_id`. -/
theorem accept_by_requester_is_not_authorization_error :
    (acceptConnection ⟨[⟨10, true⟩, ⟨20, true⟩],
        [⟨1, 10, 20, .pending, none, 0, none⟩]⟩ 1 10 99).2 ≠
      Except.error NetErr.authorization ∧
    (acceptConnection ⟨[⟨10, true⟩, ⟨20, true⟩],
        [⟨1, 10, 20, .pending, none, 0, none⟩]⟩ 1 10 99).2 =
      Except.error NetErr.connectionNotFound := by
  constructor
  · decide
  · decide

/-- Claim C1 (amended): for every connection row in state pending and
every actor that is not the addressee of any row with the queried id (in
particular the requester), `accept(connectionId, actor)` fails with the
NotFound error `"Connection request not found"` — not an Authorization
error — and the store is unchanged, so the row's status remains
pending. -/
theorem accept_by_non_addressee_fails_not_found (st : NetState)
    (connectionId actor now : Nat)
    (h : ∀ c ∈ st.connections, c.id = connectionId → c.addressee_id ≠ actor) :
    acceptConnection st connectionId actor now = (st, .error .connectionNotFound) := by
  have hf : st.connections.find? (fun c =>
      c.id == connectionId && c.addressee_id == actor &&
        c.status == ConnStatus.pending) = none := by
    rw [List.find?_eq_none]
    intro c hc
    simp only [Bool.and_eq_true, beq_iff_eq]
    rintro ⟨⟨hid, haddr⟩, _⟩
    exact h c hc hid haddr
  simp [acceptConnection, hf]

/-- Claim C1, witness: the amended theorem applied to the concrete
pending connection of the counterexample, with the requester as the
actor. -/
theorem accept_by_non_addressee_fails_not_found_witness :
    acceptConnection ⟨[⟨10, true⟩, ⟨20, true⟩],
        [⟨1, 10, 20, .pending, none, 0, none⟩]⟩ 1 10 99 =
      (⟨[⟨10, true⟩, ⟨20, true⟩], [⟨1, 10, 20, .pending, none, 0, none⟩]⟩,
        .error .connectionNotFound) :=
  accept_by_non_addressee_fails_not_found _ 1 10 99 (by decide)

/-- Claim C2, counterexample to the claim as stated: on the `accept`
transition, a raising graph-mirror write is not caught — the exception
propagates to the caller (`mirrorException`, not `ok`) and the `get_db`
boundary rolls the relational write back (the returned store is the
original one, the row still pending). -/
theorem accept_mirror_failure_propagates :
    acceptConnectionApi ⟨[⟨10, true⟩, ⟨20, true⟩],
        [⟨2, 10, 20, .pending, none, 0, none⟩]⟩ 2 20 7 true .raises =
      (⟨[⟨10, true⟩, ⟨20, true⟩], [⟨2, 10, 20, .pending, none, 0, none⟩]⟩,
        .mirrorException) ∧
    (acceptConnectionApi ⟨[⟨10, true⟩, ⟨20, true⟩],
        [⟨2, 10, 20, .pending, none, 0, none⟩]⟩ 2 20 7 true .raises).2 ≠
      CallResult.ok := by
  constructor
  · decide
  · decide

/-- Claim C2 (amended): only the send transition routes its mirror write
through `_sync_connection_to_neo4j`, which catches and logs every
failure: `send_connection_request` never surfaces a mirror exception and
its outcome (result and committed store) is independent of the mirror
write's outcome.  The accept, decline and remove transitions call the
mirror client directly; they are immune to mirror failures only when the
client is disconnected (the client then skips the write). -/
theorem mirror_failures_swallowed_on_send_only :
    (∀ (st : NetState) (requester addressee : Nat) (message : Option String)
       (now newId : Nat) (connected : Bool) (m : MirrorOutcome),
       sendConnectionRequestApi st requester addressee message now newId connected m =
         sendConnectionRequestApi st requester addressee message now newId connected
           .succeeds ∧
       (sendConnectionRequestApi st requester addressee message now newId
           connected m).2 ≠ CallResult.mirrorException) ∧
    (∀ (st : NetState) (connectionId userId now : Nat) (m : MirrorOutcome),
       (acceptConnectionApi st connectionId userId now false m).2 ≠
         CallResult.mirrorException) ∧
    (∀ (st : NetState) (connectionId userId now : Nat) (m : MirrorOutcome),
       (declineConnectionApi st connectionId userId now false m).2 ≠
         CallResult.mirrorException) ∧
    (∀ (st : NetState) (connectionId userId : Nat) (m : MirrorOutcome),
       (removeConnectionApi st connectionId userId false m).2 ≠
         CallResult.mirrorException) := by
  have hsync : ∀ (connected : Bool) (m : MirrorOutcome),
      syncConnectionToNeo4j connected m = .ok () := by
    intro connected m
    cases connected <;> cases m <;> rfl
  refine ⟨?_, ?_, ?_, ?_⟩
  · intro st requester addressee message now newId connected m
    simp only [sendConnectionRequestApi, hsync]
    refine ⟨trivial, ?_⟩
    cases hr : (sendConnectionRequest st requester addressee message now newId).2 <;>
      simp
  · intro st connectionId userId now m
    simp only [acceptConnectionApi, mirrorWrite]
    cases hr : (acceptConnection st connectionId userId now).2 <;> simp
  · intro st connectionId userId now m
    simp only [declineConnectionApi, mirrorWrite]
    cases hr : (declineConnection st connectionId userId now).2 <;> simp
  · intro st connectionId userId m
    simp only [removeConnectionApi, mirrorWrite]
    cases hr : (removeConnection st connectionId userId).2 <;> simp

/-- Claim C2, witness: the amended theorem applied at a concrete send
with a connected, raising mirror — the caller still sees success. -/
theorem mirror_failures_swallowed_on_send_only_witness :
    (sendConnectionRequestApi ⟨[⟨1, true⟩, ⟨2, true⟩], []⟩ 1 2 none 0 5 true
        .raises).2 ≠ CallResult.mirrorException :=
  (mirror_failures_swallowed_on_send_only.1 ⟨[⟨1, true⟩, ⟨2, true⟩], []⟩ 1 2 none 0 5
    true .raises).2

/-- Claim C8, counterexample to the claim as stated: in the store
holding the rows declined(1 → 2) and pending(2 → 1) — reachable by the
opposite-direction race of the C6 theorems followed by one decline — a
declined connection row exists between users 1 and 2, yet
`sendRequest(1, 2)` does not succeed and revives it: the pair query
matches two rows, so `scalar_one_or_none()` raises
`MultipleResultsFound` and the store is unchanged. -/
theorem declined_row_present_but_send_raises :
    (sendConnectionRequest
        ⟨[⟨1, true⟩, ⟨2, true⟩],
         [⟨7, 1, 2, .declined, none, 3, some 4⟩,
          ⟨8, 2, 1, .pending, none, 5, none⟩]⟩ 1 2 none 9 50).2 =
      .error .multipleResultsFound ∧
    (⟨7, 1, 2, .declined, none, 3, some 4⟩ : Connection) ∈
      (⟨[⟨1, true⟩, ⟨2, true⟩],
        [⟨7, 1, 2, .declined, none, 3, some 4⟩,
         ⟨8, 2, 1, .pending, none, 5, none⟩]⟩ : NetState).connections ∧
    (sendConnectionRequest
        ⟨[⟨1, true⟩, ⟨2, true⟩],
         [⟨7, 1, 2, .declined, none, 3, some 4⟩,
          ⟨8, 2, 1, .pending, none, 5, none⟩]⟩ 1 2 none 9 50).1 =
      ⟨[⟨1, true⟩, ⟨2, true⟩],
       [⟨7, 1, 2, .declined, none, 3, some 4⟩,
        ⟨8, 2, 1, .pending, none, 5, none⟩]⟩ := by
  refine ⟨?_, ?_, ?_⟩ <;> decide

/-- Claim C8 (amended): if the declined row is the only connection row
for the unordered pair — the invariant state; with several matching rows
(reachable via the C6 race) `scalar_one_or_none()` raises
`MultipleResultsFound` instead — then `sendRequest` in either direction
succeeds and revives that row: status reset to pending, requester and
addressee set to the new request's direction, `requested_at` set to the
current time, `responded_at` reset to null, and no second row is created
(the row count is unchanged). -/
theorem send_request_revives_declined_row (st : NetState) (requester addressee : Nat)
    (message : Option String) (now newId : Nat) (c : Connection)
    (hne : requester ≠ addressee)
    (hactive : (st.users.any fun u => u.id == addressee && u.is_active) = true)
    (hfind : pairConnections st.connections requester addressee = [c])
    (hdecl : c.status = .declined) :
    (sendConnectionRequest st requester addressee message now newId).2 =
      .ok { c with
              status := .pending
              requester_id := requester
              addressee_id := addressee
              message := message
              requested_at := now
              responded_at := none } ∧
    (sendConnectionRequest st requester addressee message now
        newId).1.connections.length = st.connections.length := by
  have hne2 : (requester == addressee) = false := by
    simp [hne]
  simp only [sendConnectionRequest, hne2, hactive, hfind, hdecl]
  simp

/-- Claim C8, witness: the amended theorem applied to a store whose only
row for the pair is a declined one (originally requested by 1), revived
by a fresh request from 2 to 1. -/
theorem send_request_revives_declined_row_witness :
    (sendConnectionRequest ⟨[⟨1, true⟩, ⟨2, true⟩],
        [⟨7, 1, 2, .declined, some "hi", 3, some 4⟩]⟩ 2 1 none 9 50).2 =
      .ok ⟨7, 2, 1, .pending, none, 9, none⟩ ∧
    (sendConnectionRequest ⟨[⟨1, true⟩, ⟨2, true⟩],
        [⟨7, 1, 2, .declined, some "hi", 3, some 4⟩]⟩ 2 1 none 9
        50).1.connections.length =
      (⟨[⟨1, true⟩, ⟨2, true⟩],
        [⟨7, 1, 2, .declined, some "hi", 3, some 4⟩]⟩ : NetState).connections.length :=
  send_request_revives_declined_row _ 2 1 none 9 50 ⟨7, 1, 2, .declined, some "hi", 3, some 4⟩
    (by decide) (by decide) (by decide) (by decide)

/-- Claim C4: for every user present in the users table and every
`maxDepth`, `findPath(A, A, maxDepth)` returns `found=true`, `length=0`
and the single-node path `[A]` — regardless of the connection and skill
tables. -/
theorem find_path_self (users : List DbUser) (conns : List Connection)
    (skills : List (Nat × String)) (sourceId maxDepth : Nat) (u : DbUser)
    (hu : users.find? (fun x => x.id == sourceId) = some u) :
    find_path users conns skills sourceId sourceId maxDepth =
      some { found := true
             path := [{ id := sourceId, type := "user",
                        label := pyOr u.full_name u.username,
                        image_url := u.profile_image_url }]
             edges := [], length := 0, relationship_types := [] } := by
  simp [find_path, hu]

/-- Claim C4, witness: a lone user with no connections at all still gets
the single-node self path. -/
theorem find_path_self_witness :
    find_path [⟨4, "solo", some "Solo User", none⟩] [] [] 4 4 3 =
      some { found := true
             path := [{ id := 4, type := "user", label := "Solo User",
                        image_url := none }]
             edges := [], length := 0, relationship_types := [] } :=
  find_path_self [⟨4, "solo", some "Solo User", none⟩] [] [] 4 3
    ⟨4, "solo", some "Solo User", none⟩ (by decide)

/-- Claim C3 (code bug): with users 1—2—3 joined by two accepted
connections and no shared skills, `findPath(1, 3, maxDepth = 1)` returns
`found=true` with `length = 2` — a path of `maxDepth + 1` hops — where
the `max_depth` contract (and the sibling Cypher path finder, which caps
at `*1..max_depth` relationships) requires `found=false, length=0`.  The
guard `len(path) > max_depth + 1` only stops the expansion of paths that
already exceed `max_depth` hops, and the target test runs during
expansion, one hop further. -/
theorem find_path_exceeds_max_depth :
    (find_path
        [⟨1, "a", none, none⟩, ⟨2, "b", none, none⟩, ⟨3, "c", none, none⟩]
        [⟨1, 1, 2, .accepted, none, 0, none⟩, ⟨2, 2, 3, .accepted, none, 0, none⟩]
        [] 1 3 1).map (fun r => (r.found, r.length)) = some (true, 2) := by
  decide

/-- The mirror upsert never touches the node list. -/
theorem createConnectionRequestGraph_userNodes (g : GraphStore) (a b : Nat)
    (m : Option String) (t : Nat) :
    (createConnectionRequestGraph g a b m t).userNodes = g.userNodes := by
  unfold createConnectionRequestGraph
  split
  · split <;> rfl
  · rfl

/-- After one `create_connection_request` upsert on a store holding at
most one `a → b` edge, exactly one `a → b` edge exists: `MERGE` updates
the matched directed edge in place or creates the missing one. -/
theorem orderedEdgeCount_create (g : GraphStore) (a b : Nat) (m : Option String)
    (t : Nat) (ha : a ∈ g.userNodes) (hb : b ∈ g.userNodes)
    (hwf : orderedEdgeCount g a b ≤ 1) :
    orderedEdgeCount (createConnectionRequestGraph g a b m t) a b = 1 := by
  unfold createConnectionRequestGraph
  rw [if_pos ⟨ha, hb⟩]
  by_cases hany : g.edges.any (fun e => e.src == a && e.dst == b) = true
  · rw [if_pos hany]
    have hcount : orderedEdgeCount
        { g with edges := g.edges.map fun e =>
            if e.src == a && e.dst == b then
              { e with status := ConnStatus.pending, message := m, requested_at := t }
            else e } a b = orderedEdgeCount g a b := by
      unfold orderedEdgeCount
      rw [← List.countP_eq_length_filter, ← List.countP_eq_length_filter,
        List.countP_map]
      apply List.countP_congr
      intro e he
      simp only [Function.comp]
      by_cases hc : (e.src == a && e.dst == b) = true
      · simp [hc]
      · simp [hc]
    rw [hcount]
    have hpos : 0 < orderedEdgeCount g a b := by
      unfold orderedEdgeCount
      rw [← List.countP_eq_length_filter, List.countP_pos]
      obtain ⟨e, he, hpe⟩ := List.any_eq_true.mp hany
      exact ⟨e, he, hpe⟩
    omega
  · rw [if_neg hany]
    have hzero : orderedEdgeCount g a b = 0 := by
      unfold orderedEdgeCount
      rw [← List.countP_eq_length_filter]
      rw [List.countP_eq_zero]
      intro e he
      intro hpe
      exact hany (List.any_eq_true.mpr ⟨e, he, hpe⟩)
    unfold orderedEdgeCount at hzero ⊢
    rw [List.filter_append, List.length_append, hzero]
    simp

/-- Claim C5, counterexample to the claim as stated: starting from a
mirror with user nodes 1 and 2 and no edges, syncing a pending edge once
in each direction (as after a revival that swaps requester and
addressee) leaves **two** `CONNECTED_TO` edges for the unordered pair
— the Cypher `MERGE` pattern is directed, keyed by the *ordered* pair. -/
theorem sync_opposite_directions_duplicates_edge :
    pairEdgeCount (createConnectionRequestGraph
      (createConnectionRequestGraph ⟨[1, 2], []⟩ 1 2 none 0) 2 1 none 1) 1 2 = 2 := by
  decide

/-- Claim C5 (amended): the mirror upsert is idempotent keyed by the
*ordered* `(requester, addressee)` pair: on a store holding at most one
`a → b` edge (with both endpoint nodes present), applying the pending
sync once and then again — same direction — leaves exactly one `a → b`
edge, never a duplicate.  (Re-applying it in the opposite direction, as
after a revival that swaps requester and addressee, instead creates a
second edge for the unordered pair.) -/
theorem create_connection_request_idempotent_ordered (g : GraphStore) (a b : Nat)
    (m1 m2 : Option String) (t1 t2 : Nat)
    (ha : a ∈ g.userNodes) (hb : b ∈ g.userNodes)
    (hwf : orderedEdgeCount g a b ≤ 1) :
    orderedEdgeCount (createConnectionRequestGraph g a b m1 t1) a b = 1 ∧
    orderedEdgeCount (createConnectionRequestGraph
      (createConnectionRequestGraph g a b m1 t1) a b m2 t2) a b = 1 := by
  have h1 := orderedEdgeCount_create g a b m1 t1 ha hb hwf
  refine ⟨h1, ?_⟩
  have hn := createConnectionRequestGraph_userNodes g a b m1 t1
  exact orderedEdgeCount_create _ a b m2 t2 (hn ▸ ha) (hn ▸ hb) (by omega)

/-- Claim C5, witness: the amended theorem on the empty two-user mirror:
one edge after the first sync, still one edge after re-applying it in
the same direction. -/
theorem create_connection_request_idempotent_ordered_witness :
    orderedEdgeCount (createConnectionRequestGraph ⟨[1, 2], []⟩ 1 2 (some "hi") 0) 1 2 = 1 ∧
    orderedEdgeCount (createConnectionRequestGraph
      (createConnectionRequestGraph ⟨[1, 2], []⟩ 1 2 (some "hi") 0) 1 2 none 4) 1 2 = 1 :=
  create_connection_request_idempotent_ordered ⟨[1, 2], []⟩ 1 2 (some "hi") none 0 4
    (by decide) (by decide) (by decide)

/-- Claim C6, counterexample to the claim as stated: two
near-simultaneous `sendRequest` calls in opposite directions between
active users 1 and 2, interleaved check-check-act-act, **both succeed**
(the code takes no row-level lock and the unique constraint is on the
ordered pair), and afterwards **two** active connection rows exist for
the pair. -/
theorem concurrent_opposite_sends_both_succeed :
    (raceOppositeSends ⟨[⟨1, true⟩, ⟨2, true⟩], []⟩ 1 2 none none 0 0 100 101).2.1 =
      .ok (.ok ⟨100, 1, 2, .pending, none, 0, none⟩) ∧
    (raceOppositeSends ⟨[⟨1, true⟩, ⟨2, true⟩], []⟩ 1 2 none none 0 0 100 101).2.2 =
      .ok (.ok ⟨101, 2, 1, .pending, none, 0, none⟩) ∧
    activePairCount
      (raceOppositeSends ⟨[⟨1, true⟩, ⟨2, true⟩], []⟩ 1 2 none none 0 0 100 101).1
      1 2 = 2 := by
  refine ⟨?_, ?_, ?_⟩ <;> decide

/-- Claim C6 (amended): `send_connection_request` takes no row-level
lock; its duplicate check and its write are separate steps, so whenever
no connection row exists for the pair and both users are active, the
check-check-act-act interleaving of `sendRequest(A,B)` and
`sendRequest(B,A)` lets **both** calls succeed — the ordered-pair unique
constraint does not block them — and afterwards exactly **two** active
(pending) connection rows exist for the unordered pair. -/
theorem race_opposite_sends_two_active_rows (st : NetState) (a b : Nat)
    (msg1 msg2 : Option String) (now1 now2 id1 id2 : Nat)
    (hab : a ≠ b)
    (hA : (st.users.any fun u => u.id == a && u.is_active) = true)
    (hB : (st.users.any fun u => u.id == b && u.is_active) = true)
    (hnone : findExistingConnection st.connections a b = none) :
    raceOppositeSends st a b msg1 msg2 now1 now2 id1 id2 =
      ({ st with connections := (st.connections ++
            [⟨id1, a, b, .pending, msg1, now1, none⟩]) ++
            [⟨id2, b, a, .pending, msg2, now2, none⟩] },
        .ok (.ok ⟨id1, a, b, .pending, msg1, now1, none⟩),
        .ok (.ok ⟨id2, b, a, .pending, msg2, now2, none⟩)) ∧
    activePairCount
      (raceOppositeSends st a b msg1 msg2 now1 now2 id1 id2).1 a b = 2 := by
  have hab1 : (a == b) = false := by simp [hab]
  have hab2 : (b == a) = false := by simp [Ne.symm hab]
  have hpt : ∀ c ∈ st.connections,
      ¬((c.requester_id == a && c.addressee_id == b) ||
        (c.requester_id == b && c.addressee_id == a)) = true := by
    intro c hc
    exact List.find?_eq_none.mp hnone c hc
  have hnone2 : findExistingConnection st.connections b a = none := by
    rw [findExistingConnection, List.find?_eq_none]
    intro c hc
    have := hpt c hc
    simp only [Bool.or_eq_true, Bool.and_eq_true] at this ⊢
    tauto
  have hcheck1 : sendCheck st a b = .ok none := by
    simp [sendCheck, hab1, hB, hnone]
  have hcheck2 : sendCheck st b a = .ok none := by
    simp [sendCheck, hab2, hA, hnone2]
  have huniq1 : (st.connections.any fun c =>
      c.requester_id == a && c.addressee_id == b) = false := by
    rw [List.any_eq_false]
    intro c hc
    have := hpt c hc
    simp only [Bool.or_eq_true] at this
    tauto
  have huniq2 : ((st.connections ++ [(⟨id1, a, b, .pending, msg1, now1, none⟩ :
      Connection)]).any fun c =>
      c.requester_id == b && c.addressee_id == a) = false := by
    rw [List.any_eq_false]
    intro c hc
    rcases List.mem_append.mp hc with hcl | hcr
    · have := hpt c hcl
      simp only [Bool.or_eq_true] at this
      tauto
    · have : c = ⟨id1, a, b, .pending, msg1, now1, none⟩ := List.mem_singleton.mp hcr
      subst this
      simp [hab2]
  have hmain : raceOppositeSends st a b msg1 msg2 now1 now2 id1 id2 =
      ({ st with connections := (st.connections ++
            [⟨id1, a, b, .pending, msg1, now1, none⟩]) ++
            [⟨id2, b, a, .pending, msg2, now2, none⟩] },
        .ok (.ok ⟨id1, a, b, .pending, msg1, now1, none⟩),
        .ok (.ok ⟨id2, b, a, .pending, msg2, now2, none⟩)) := by
    rw [raceOppositeSends, hcheck1, hcheck2]
    simp only [sendAct, huniq1]
    simp only [Bool.false_eq_true, if_neg, ite_false]
    simp only [huniq2, Bool.false_eq_true, ite_false]
  refine ⟨hmain, ?_⟩
  rw [hmain]
  unfold activePairCount
  simp only [List.filter_append]
  have hfil : st.connections.filter (fun c =>
      ((c.requester_id == a && c.addressee_id == b) ||
       (c.requester_id == b && c.addressee_id == a)) &&
      (c.status == ConnStatus.pending || c.status == ConnStatus.accepted)) = [] := by
    rw [List.filter_eq_nil]
    intro c hc
    have := hpt c hc
    simp only [Bool.and_eq_true, Bool.or_eq_true] at this ⊢
    tauto
  rw [hfil]
  simp

/-- Claim C6, witness: the amended theorem on a store already holding an
unrelated accepted connection between users 3 and 4. -/
theorem race_opposite_sends_two_active_rows_witness :
    raceOppositeSends ⟨[⟨3, true⟩, ⟨4, true⟩, ⟨5, true⟩, ⟨6, true⟩],
        [⟨1, 3, 4, .accepted, none, 0, some 1⟩]⟩ 5 6 (some "hey") none 8 9 200 201 =
      (⟨[⟨3, true⟩, ⟨4, true⟩, ⟨5, true⟩, ⟨6, true⟩],
          ([⟨1, 3, 4, .accepted, none, 0, some 1⟩] ++
            [⟨200, 5, 6, .pending, some "hey", 8, none⟩]) ++
            [⟨201, 6, 5, .pending, none, 9, none⟩]⟩,
        .ok (.ok ⟨200, 5, 6, .pending, some "hey", 8, none⟩),
        .ok (.ok ⟨201, 6, 5, .pending, none, 9, none⟩)) ∧
    activePairCount
      (raceOppositeSends ⟨[⟨3, true⟩, ⟨4, true⟩, ⟨5, true⟩, ⟨6, true⟩],
        [⟨1, 3, 4, .accepted, none, 0, some 1⟩]⟩ 5 6 (some "hey") none 8 9 200 201).1
      5 6 = 2 :=
  race_opposite_sends_two_active_rows
    ⟨[⟨3, true⟩, ⟨4, true⟩, ⟨5, true⟩, ⟨6, true⟩],
      [⟨1, 3, 4, .accepted, none, 0, some 1⟩]⟩ 5 6 (some "hey") none 8 9 200 201
    (by decide) (by decide) (by decide) (by decide)

/-- A fold that appends one node and one edge per element equals the
initial lists extended by the mapped element lists. -/
theorem foldl_pair_append {α β γ : Type} (f : α → β) (g : α → γ)
    (l : List α) (ns : List β) (es : List γ) :
    l.foldl (fun acc x => (acc.1 ++ [f x], acc.2 ++ [g x])) (ns, es) =
      (ns ++ l.map f, es ++ l.map g) := by
  induction l generalizing ns es with
  | nil => simp
  | cons x xs ih => simp [ih]

/-- The node list assembled by `_get_ecosystem_graph` is the center
node, then the connected users, skills, communities and events, in that
order. -/
theorem ecosystemAssemble_nodes (row : EcosystemRow) :
    (ecosystemAssemble row).1 =
      userToNode row.center true ::
        (row.connectedUsers.map (fun u => userToNode u false) ++
          row.skills.map skillToNode ++ row.communities.map communityToNode ++
          row.events.map eventToNode) := by
  unfold ecosystemAssemble
  rw [foldl_pair_append, foldl_pair_append, foldl_pair_append, foldl_pair_append]
  simp [List.append_assoc]

/-- Claim C9: for the ecosystem view (no node-type filter), the returned
nodes are exactly the first `limit` entries of the construction order —
center user, then connected users, then skills, then communities, then
events — with no reordering applied before truncation. -/
theorem ecosystem_truncation_keeps_construction_order (row : EcosystemRow)
    (userId : String) (lim : Nat) :
    (getEcosystemGraph row none userId lim).1 =
      (userToNode row.center true ::
        (row.connectedUsers.map (fun u => userToNode u false) ++
          row.skills.map skillToNode ++ row.communities.map communityToNode ++
          row.events.map eventToNode)).take lim := by
  unfold getEcosystemGraph
  simp only [ecosystemAssemble_nodes]

/-- Membership is preserved by the stable descending insertion. -/
theorem mem_insertByCountDesc {α : Type} (key : α → Nat) (p x : α) (l : List α) :
    x ∈ insertByCountDesc key p l ↔ x = p ∨ x ∈ l := by
  induction l with
  | nil => simp [insertByCountDesc]
  | cons q rest ih =>
    unfold insertByCountDesc
    by_cases h : key p < key q
    · rw [if_pos h]
      simp only [List.mem_cons, ih]
      tauto
    · rw [if_neg h]
      simp only [List.mem_cons]

/-- Membership is preserved by the stable descending sort. -/
theorem mem_sortByCountDesc {α : Type} (key : α → Nat) (x : α) (l : List α) :
    x ∈ sortByCountDesc key l ↔ x ∈ l := by
  induction l with
  | nil => simp [sortByCountDesc]
  | cons q rest ih =>
    unfold sortByCountDesc at ih ⊢
    rw [List.foldr_cons, mem_insertByCountDesc, ih, List.mem_cons]

/-- The stable descending insertion grows the length by one. -/
theorem length_insertByCountDesc {α : Type} (key : α → Nat) (p : α) (l : List α) :
    (insertByCountDesc key p l).length = l.length + 1 := by
  induction l with
  | nil => rfl
  | cons q rest ih =>
    unfold insertByCountDesc
    by_cases h : key p < key q
    · simp [if_pos h, ih]
    · simp [if_neg h]

/-- The stable descending sort preserves the length. -/
theorem length_sortByCountDesc {α : Type} (key : α → Nat) (l : List α) :
    (sortByCountDesc key l).length = l.length := by
  induction l with
  | nil => rfl
  | cons q rest ih =>
    unfold sortByCountDesc at ih ⊢
    rw [List.foldr_cons, length_insertByCountDesc, ih]
    rfl

/-- Sorting a list whose keys are all equal changes nothing. -/
theorem sortByDesc_const {α : Type} (key : α → ℚ) (c : ℚ) (l : List α)
    (h : ∀ p ∈ l, key p = c) : sortByDesc key l = l := by
  induction l with
  | nil => rfl
  | cons p rest ih =>
    have hrest := ih fun q hq => h q (List.mem_cons_of_mem p hq)
    unfold sortByDesc at hrest ⊢
    rw [List.foldr_cons, hrest]
    cases rest with
    | nil => rfl
    | cons q rest2 =>
      unfold insertByDesc
      rw [if_neg]
      rw [h p (List.mem_cons_self p _), h q (List.mem_cons_of_mem p (List.mem_cons_self q _))]
      exact lt_irrefl c

/-- Claim C7, counterexample to the claim as stated: user 2 is active,
graph-visible and shares exactly one skill (`Python`) with the queried
user 1, yet the skill-overlap signal produces **no** candidate at all —
the SQL carries `HAVING COUNT(DISTINCT us.skill_id) >= 2`, so sharing a
single skill is not enough to appear. -/
theorem single_shared_skill_not_a_candidate :
    find_skill_similar ⟨[⟨1, true, "u1"⟩, ⟨2, true, "u2"⟩], [],
        [(1, 10), (1, 11), (2, 10)], [(10, "Python"), (11, "SQL")], [], [], []⟩
      1 10 = [] ∧
    (sharedSkillIdsWith ⟨[⟨1, true, "u1"⟩, ⟨2, true, "u2"⟩], [],
        [(1, 10), (1, 11), (2, 10)], [(10, "Python"), (11, "SQL")], [], [], []⟩
      1 2).length = 1 ∧
    graphVisible ([] : List ProfileRow) 2 = true := by
  refine ⟨?_, ?_, ?_⟩ <;> decide

/-- Claim C7 (amended): every candidate produced by the skill-overlap
signal has `score = min(sharedSkillCount / totalUserSkills * 1.2, 1.0)`,
and every active, graph-visible user sharing at least **two** distinct
skills with the queried user appears as a candidate regardless of
`minSimilarity` (whenever the qualifying users fit inside `limit`); in
particular, with `minSimilarity = 0`, the spec §8 example — candidates
sharing exactly 2 of the queried user's 2 skills and contributing no
other signal — yields `similarity_score = 1.0` for each of users 2..5
from the full `computeSimilarities` pipeline. -/
theorem skill_overlap_scores_and_candidates :
    (∀ (t : SimTables) (uid lim : Nat), ∀ p ∈ find_skill_similar t uid lim,
       p.similarity_score =
         min ((((sharedSkillIdsWith t uid p.user_id).length : ℚ) /
           ((userSkillIds t uid).length : ℚ)) * (6 / 5)) 1) ∧
    (∀ (t : SimTables) (uid lim : Nat), ∀ u ∈ t.users,
       skillCandidateFilter t uid u = true →
       (t.users.filter (skillCandidateFilter t uid)).length ≤ lim →
       ∃ p ∈ find_skill_similar t uid lim, p.user_id = u.id) ∧
    ((compute_user_similarities exampleSimTables 1 0 10 []).map
        fun p => (p.user_id, p.similarity_score)) =
      [(2, 1), (3, 1), (4, 1), (5, 1)] := by
  have hscore : ∀ (t : SimTables) (uid : Nat) (u : SimUser),
      (userSkillIds t uid).isEmpty = false →
      (mkSkillProfile t uid u).similarity_score =
        min ((((sharedSkillIdsWith t uid u.id).length : ℚ) /
          ((userSkillIds t uid).length : ℚ)) * (6 / 5)) 1 := by
    intro t uid u hne
    have hpos : 0 < (userSkillIds t uid).length := by
      cases hl : userSkillIds t uid
      · rw [hl] at hne
        simp at hne
      · simp [hl]
    simp only [mkSkillProfile, if_pos hpos]
  refine ⟨?_, ?_, ?_⟩
  · intro t uid lim p hp
    rw [find_skill_similar] at hp
    by_cases hne : (userSkillIds t uid).isEmpty
    · rw [if_pos hne] at hp
      exact absurd hp (List.not_mem_nil p)
    · rw [if_neg hne] at hp
      obtain ⟨u, hu, rfl⟩ := List.mem_map.mp hp
      have hne2 : (userSkillIds t uid).isEmpty = false := by simpa using hne
      rw [hscore t uid u hne2]
      rfl
  · intro t uid lim u hu hq hlen
    have hne : (userSkillIds t uid).isEmpty = false := by
      cases hl : userSkillIds t uid with
      | nil =>
        exfalso
        rw [skillCandidateFilter] at hq
        simp only [Bool.and_eq_true, decide_eq_true_eq] at hq
        have hempty : sharedSkillIdsWith t uid u.id = [] := by
          rw [sharedSkillIdsWith, hl]
          simp
        have h2 := hq.2
        rw [hempty] at h2
        simp at h2
      | cons a l => rfl
    have hcand : u ∈ t.users.filter (skillCandidateFilter t uid) :=
      List.mem_filter.mpr ⟨hu, hq⟩
    have hsorted : u ∈ sortByCountDesc
        (fun u => (sharedSkillIdsWith t uid u.id).length)
        (t.users.filter (skillCandidateFilter t uid)) :=
      (mem_sortByCountDesc _ u _).mpr hcand
    have htake : (sortByCountDesc (fun u => (sharedSkillIdsWith t uid u.id).length)
        (t.users.filter (skillCandidateFilter t uid))).take lim =
        sortByCountDesc (fun u => (sharedSkillIdsWith t uid u.id).length)
          (t.users.filter (skillCandidateFilter t uid)) :=
      List.take_of_length_le (by rw [length_sortByCountDesc]; exact hlen)
    have hmem2 : u ∈ (sortByCountDesc (fun u => (sharedSkillIdsWith t uid u.id).length)
        (t.users.filter (skillCandidateFilter t uid))).take lim := by
      rw [htake]
      exact hsorted
    refine ⟨mkSkillProfile t uid u, ?_, rfl⟩
    rw [find_skill_similar, if_neg (by rw [hne]; exact Bool.false_ne_true)]
    exact List.mem_map_of_mem _ hmem2
  · have hskill : find_skill_similar exampleSimTables 1 10 =
        [mkSkillProfile exampleSimTables 1 ⟨2, true, "u2"⟩,
         mkSkillProfile exampleSimTables 1 ⟨3, true, "u3"⟩,
         mkSkillProfile exampleSimTables 1 ⟨4, true, "u4"⟩,
         mkSkillProfile exampleSimTables 1 ⟨5, true, "u5"⟩] := by
      have h1 : (sortByCountDesc
          (fun u => (sharedSkillIdsWith exampleSimTables 1 u.id).length)
          (exampleSimTables.users.filter (skillCandidateFilter exampleSimTables 1))).take 10 =
          [⟨2, true, "u2"⟩, ⟨3, true, "u3"⟩, ⟨4, true, "u4"⟩, ⟨5, true, "u5"⟩] := by decide
      rw [find_skill_similar, if_neg (by decide)]
      show (List.map (mkSkillProfile exampleSimTables 1) ((sortByCountDesc
          (fun u => (sharedSkillIdsWith exampleSimTables 1 u.id).length)
          (exampleSimTables.users.filter (skillCandidateFilter exampleSimTables 1))).take 10)) = _
      rw [h1]
      rfl
    have hone : ∀ u : SimUser, u.id ∈ [2, 3, 4, 5] →
        (mkSkillProfile exampleSimTables 1 u).similarity_score = 1 := by
      intro u hu
      rw [hscore exampleSimTables 1 u (by decide)]
      have h2 : (sharedSkillIdsWith exampleSimTables 1 u.id).length = 2 := by
        simp only [List.mem_cons, List.not_mem_nil, or_false] at hu
        rcases hu with h | h | h | h
        · rw [h]; decide
        · rw [h]; decide
        · rw [h]; decide
        · rw [h]; decide
      rw [h2, show (userSkillIds exampleSimTables 1).length = 2 from by decide]
      norm_num
    have hsortc : sortByDesc (fun p => p.similarity_score)
        (merge_similarities (merge_similarities []
          (find_skill_similar exampleSimTables 1 10))
          (find_community_similar exampleSimTables 1 10)) =
        merge_similarities (merge_similarities []
          (find_skill_similar exampleSimTables 1 10))
          (find_community_similar exampleSimTables 1 10) := by
      apply sortByDesc_const _ 1
      rw [hskill, show find_community_similar exampleSimTables 1 10 = [] from by decide]
      intro p hp
      have hp2 : p ∈ [mkSkillProfile exampleSimTables 1 ⟨2, true, "u2"⟩,
          mkSkillProfile exampleSimTables 1 ⟨3, true, "u3"⟩,
          mkSkillProfile exampleSimTables 1 ⟨4, true, "u4"⟩,
          mkSkillProfile exampleSimTables 1 ⟨5, true, "u5"⟩] := hp
      simp only [List.mem_cons, List.not_mem_nil, or_false] at hp2
      rcases hp2 with h | h | h | h
      · rw [h]; exact hone _ (by decide)
      · rw [h]; exact hone _ (by decide)
      · rw [h]; exact hone _ (by decide)
      · rw [h]; exact hone _ (by decide)
    rw [compute_user_similarities]
    rw [show exampleSimTables.embeddings.find? (fun r => r.1 == 1) = none from rfl]
    rw [hsortc, hskill, show find_community_similar exampleSimTables 1 10 = [] from by decide]
    simp only [List.map]
    rw [hone _ (by decide), hone _ (by decide), hone _ (by decide), hone _ (by decide)]
    rfl

/-- Claim C7, witness: the amended theorem's candidate clause applied to
the spec §8 example — user 2 (sharing both of user 1's two skills)
appears as a skill-signal candidate. -/
theorem skill_overlap_scores_and_candidates_witness :
    ∃ p ∈ find_skill_similar exampleSimTables 1 10, p.user_id = 2 :=
  skill_overlap_scores_and_candidates.2.1 exampleSimTables 1 10 ⟨2, true, "u2"⟩
    (by decide) (by decide) (by decide)

/-- A member of any bucket occurs at least once among all bucket
members. -/
theorem one_le_count_bucket_members (sc : List (String × List String))
    (b : String × List String) (hb : b ∈ sc) (x : String) (hx : x ∈ b.2) :
    1 ≤ ((sc.flatMap fun p => p.2).count x) := by
  induction sc with
  | nil => exact absurd hb (List.not_mem_nil b)
  | cons c rest ih =>
    rw [List.flatMap_cons, List.count_append]
    rcases List.mem_cons.mp hb with h | h
    · subst h
      have := List.count_pos_iff_mem.mpr hx
      omega
    · have := ih h
      omega

/-- A member of two different buckets occurs at least twice among all
bucket members. -/
theorem two_le_count_bucket_members (sc : List (String × List String))
    (b1 b2 : String × List String) (hb1 : b1 ∈ sc) (hb2 : b2 ∈ sc) (hne : b1 ≠ b2)
    (x : String) (h1 : x ∈ b1.2) (h2 : x ∈ b2.2) :
    2 ≤ ((sc.flatMap fun p => p.2).count x) := by
  induction sc with
  | nil => exact absurd hb1 (List.not_mem_nil b1)
  | cons c rest ih =>
    rw [List.flatMap_cons, List.count_append]
    rcases List.mem_cons.mp hb1 with hc1 | hr1
    · rcases List.mem_cons.mp hb2 with hc2 | hr2
      · exact absurd (hc1.trans hc2.symm) hne
      · have ha := List.count_pos_iff_mem.mpr (hc1 ▸ h1)
        have hbb := one_le_count_bucket_members rest b2 hr2 x h2
        omega
    · rcases List.mem_cons.mp hb2 with hc2 | hr2
      · have ha := List.count_pos_iff_mem.mpr (hc2 ▸ h2)
        have hbb := one_le_count_bucket_members rest b1 hr1 x h1
        omega
      · have := ih hr1 hr2
        omega

/-- Updating the buckets for an existing skill key keeps the key list. -/
theorem addToCluster_keys (sc : List (String × List String)) (s uid : String) :
    (addToCluster sc s uid).map (fun p => p.1) =
      if sc.any (fun p => p.1 == s) then sc.map fun p => p.1
      else (sc.map fun p => p.1) ++ [s] := by
  unfold addToCluster
  by_cases h : sc.any (fun p => p.1 == s) = true
  · rw [if_pos h, if_pos h, List.map_map]
    apply List.map_congr_left
    intro p _
    by_cases hp : (p.1 == s) = true
    · simp only [Function.comp]
      simp [hp]
    · simp only [Function.comp]
      simp [hp]
  · rw [if_neg h, if_neg h]
    simp

/-- Embeds `addToCluster` adds `uid` exactly once to the bucket members when
the accumulator has pairwise-distinct skill keys. -/
theorem count_addToCluster (s uid x : String) :
    ∀ sc : List (String × List String), ((sc.map fun p => p.1).Nodup) →
      (((addToCluster sc s uid).flatMap fun p => p.2).count x) =
        ((sc.flatMap fun p => p.2).count x) + (if uid = x then 1 else 0) := by
  intro sc
  induction sc with
  | nil =>
    intro _
    by_cases h : uid = x
    · subst h
      simp [addToCluster]
    · simp only [addToCluster, List.any_nil, Bool.false_eq_true, if_false, if_neg h,
        List.nil_append, List.flatMap_cons, List.flatMap_nil, List.count_nil,
        Nat.zero_add, List.append_nil]
      rw [List.count_eq_zero]
      simp only [List.mem_singleton]
      exact fun hc => h hc.symm
  | cons c rest ih =>
    intro hnd
    rw [List.map_cons, List.nodup_cons] at hnd
    obtain ⟨hknotin, hndrest⟩ := hnd
    by_cases hk : (c.1 == s) = true
    · have hany : ((c :: rest).any fun p => p.1 == s) = true := by
        rw [List.any_cons, hk, Bool.true_or]
      rw [addToCluster, if_pos hany, List.map_cons, if_pos hk]
      have hcs : c.1 = s := beq_iff_eq.mp hk
      have hrest_id : (rest.map fun p =>
          if p.1 == s then (p.1, p.2 ++ [uid]) else p) = rest := by
        have hid : (rest.map fun p =>
            if p.1 == s then (p.1, p.2 ++ [uid]) else p) = rest.map id := by
          apply List.map_congr_left
          intro p hp
          have hps : ¬ p.1 = s := by
            intro hcontra
            apply hknotin
            rw [hcs, ← hcontra]
            exact List.mem_map_of_mem (fun p => p.1) hp
          simp [hps]
        rw [hid, List.map_id]
      rw [hrest_id, List.flatMap_cons, List.flatMap_cons, List.count_append,
        List.count_append]
      simp only [List.count_append, List.count_cons, List.count_nil]
      by_cases h : uid = x
      · subst h
        simp
        omega
      · have : (uid == x) = false := by rw [beq_eq_false_iff_ne]; exact h
        simp [this, h]
    · by_cases ha : (rest.any fun p => p.1 == s) = true
      · have hany : ((c :: rest).any fun p => p.1 == s) = true := by
          rw [List.any_cons, ha, Bool.or_true]
        have hkf : (c.1 == s) = false := by simpa using hk
        rw [addToCluster, if_pos hany, List.map_cons, hkf]
        simp only [Bool.false_eq_true, if_false]
        have hrec := ih hndrest
        rw [addToCluster] at hrec
        rw [ha] at hrec
        simp only [if_true] at hrec
        rw [List.flatMap_cons, List.flatMap_cons, List.count_append, List.count_append,
          hrec]
        omega
      · have hkf : (c.1 == s) = false := by simpa using hk
        have haf : (rest.any fun p => p.1 == s) = false := by
          cases hx : rest.any fun p => p.1 == s
          · rfl
          · exact absurd hx ha
        have hany : ((c :: rest).any fun p => p.1 == s) = false := by
          rw [List.any_cons, hkf, haf]
          rfl
        rw [addToCluster, if_neg (by rw [hany]; exact Bool.false_ne_true)]
        rw [List.flatMap_append, List.count_append]
        simp only [List.flatMap_cons, List.flatMap_nil, List.append_nil,
          List.count_cons, List.count_nil]
        by_cases h : uid = x
        · subst h
          simp
        · have : (uid == x) = false := by rw [beq_eq_false_iff_ne]; exact h
          simp [this, h]

/-- Embeds `addToCluster` keeps the skill keys pairwise distinct. -/
theorem addToCluster_keys_nodup (sc : List (String × List String)) (s uid : String)
    (h : (sc.map fun p => p.1).Nodup) :
    ((addToCluster sc s uid).map fun p => p.1).Nodup := by
  rw [addToCluster_keys]
  by_cases hany : sc.any (fun p => p.1 == s) = true
  · rw [if_pos hany]
    exact h
  · rw [if_neg hany]
    rw [List.nodup_append]
    refine ⟨h, List.nodup_singleton s, ?_⟩
    intro a hamem hs
    rw [List.mem_singleton] at hs
    subst hs
    obtain ⟨p, hp, hp1⟩ := List.mem_map.mp hamem
    exact hany (List.any_eq_true.mpr ⟨p, hp, by rw [hp1]; exact beq_self_eq_true a⟩)

/-- Folding the user → skill-set map into skill buckets: every user key
of the map ends up in the buckets exactly as often as it occurs among
the map's keys. -/
theorem count_members_skillClusters_fold (choose : List String → String) (x : String) :
    ∀ (m : List (String × List String)) (acc : List (String × List String)),
      ((acc.map fun p => p.1).Nodup) →
      ((((m.foldl (fun sc p =>
          addToCluster sc (if p.2.isEmpty then "Other" else choose p.2) p.1)
          acc).flatMap fun p => p.2).count x) =
        ((acc.flatMap fun p => p.2).count x) + ((m.map fun p => p.1).count x)) := by
  intro m
  induction m with
  | nil =>
    intro acc _
    simp
  | cons e rest ih =>
    intro acc hnd
    rw [List.foldl_cons]
    have hstep := count_addToCluster
      (if e.2.isEmpty then "Other" else choose e.2) e.1 x acc hnd
    have hndstep := addToCluster_keys_nodup acc
      (if e.2.isEmpty then "Other" else choose e.2) e.1 hnd
    rw [ih _ hndstep, hstep, List.map_cons, List.count_cons]
    by_cases h : e.1 = x
    · subst h
      simp
      omega
    · have : (e.1 == x) = false := by rw [beq_eq_false_iff_ne]; exact h
      simp [this, h]

/-- Embeds `addUserSkill` keeps the user keys of the map, adding the new key at
the end when it is fresh. -/
theorem addUserSkill_keys (m : List (String × List String)) (uid s : String) :
    (addUserSkill m uid s).map (fun p => p.1) =
      if m.any (fun p => p.1 == uid) then m.map fun p => p.1
      else (m.map fun p => p.1) ++ [uid] := by
  unfold addUserSkill
  by_cases h : m.any (fun p => p.1 == uid) = true
  · rw [if_pos h, if_pos h, List.map_map]
    apply List.map_congr_left
    intro p _
    by_cases hp : (p.1 == uid) = true
    · simp only [Function.comp]
      simp [hp]
    · simp only [Function.comp]
      simp [hp]
  · rw [if_neg h, if_neg h]
    simp

/-- Embeds `addUserSkill` keeps the user keys pairwise distinct. -/
theorem addUserSkill_keys_nodup (m : List (String × List String)) (uid s : String)
    (h : (m.map fun p => p.1).Nodup) :
    ((addUserSkill m uid s).map fun p => p.1).Nodup := by
  rw [addUserSkill_keys]
  by_cases hany : m.any (fun p => p.1 == uid) = true
  · rw [if_pos hany]
    exact h
  · rw [if_neg hany]
    rw [List.nodup_append]
    refine ⟨h, List.nodup_singleton uid, ?_⟩
    intro a hamem hs
    rw [List.mem_singleton] at hs
    subst hs
    obtain ⟨p, hp, hp1⟩ := List.mem_map.mp hamem
    exact hany (List.any_eq_true.mpr ⟨p, hp, by rw [hp1]; exact beq_self_eq_true a⟩)

/-- The user keys of `user_skill_map` are pairwise distinct. -/
theorem buildUserSkillMap_keys_nodup (rows : List (String × String)) :
    ((buildUserSkillMap rows).map fun p => p.1).Nodup := by
  suffices h : ∀ (rs : List (String × String)) (acc : List (String × List String)),
      ((acc.map fun p => p.1).Nodup) →
      ((rs.foldl (fun m r => addUserSkill m r.1 r.2) acc).map fun p => p.1).Nodup by
    exact h rows [] (by simp)
  intro rs
  induction rs with
  | nil => intro acc h; simpa using h
  | cons r rest ih =>
    intro acc h
    rw [List.foldl_cons]
    exact ih _ (addUserSkill_keys_nodup acc r.1 r.2 h)

/-- Every user id lands in the skill buckets at most once. -/
theorem count_members_buildSkillClusters_le_one (choose : List String → String)
    (rows : List (String × String)) (x : String) :
    (((buildSkillClusters choose (buildUserSkillMap rows)).flatMap
        fun p => p.2).count x) ≤ 1 := by
  unfold buildSkillClusters
  rw [count_members_skillClusters_fold choose x (buildUserSkillMap rows) [] (by simp)]
  simp only [List.flatMap_nil, List.count_nil, Nat.zero_add]
  exact List.nodup_iff_count_le_one.mp (buildUserSkillMap_keys_nodup rows) x

/-- An element of an enumerated list is an element of the list. -/
theorem snd_mem_of_mem_enum {α : Type} :
    ∀ (n : Nat) (l : List α) (p : Nat × α), p ∈ l.enumFrom n → p.2 ∈ l := by
  intro n l
  induction l generalizing n with
  | nil => intro p hp; exact absurd hp (List.not_mem_nil p)
  | cons x xs ih =>
    intro p hp
    rw [List.enumFrom_cons] at hp
    rcases List.mem_cons.mp hp with h | h
    · rw [h]
      exact List.mem_cons_self x xs
    · exact List.mem_cons_of_mem x (ih (n + 1) p h)

/-- Embeds `upsertNat` keys: an existing key is overwritten in place, a fresh
key is appended. -/
theorem upsertNat_keys (m : List (String × Nat)) (k : String) (v : Nat) :
    (upsertNat m k v).map (fun p => p.1) =
      if m.any (fun p => p.1 == k) then m.map fun p => p.1
      else (m.map fun p => p.1) ++ [k] := by
  unfold upsertNat
  by_cases h : m.any (fun p => p.1 == k) = true
  · rw [if_pos h, if_pos h, List.map_map]
    apply List.map_congr_left
    intro p _
    by_cases hp : (p.1 == k) = true
    · simp only [Function.comp]
      simp [hp]
    · simp only [Function.comp]
      simp [hp]
  · rw [if_neg h, if_neg h]
    simp

/-- A key of the `node_cluster_map` built by a fold comes from the
accumulator or from one of the folded buckets. -/
theorem mem_keys_nodeClusterMap_fold :
    ∀ (l : List (Nat × (String × List String))) (acc : List (String × Nat)) (x : String),
      x ∈ ((l.foldl (fun m p => p.2.2.foldl (fun m2 uid => upsertNat m2 uid p.1) m)
        acc).map fun p => p.1) →
      (x ∈ (acc.map fun p => p.1)) ∨ ∃ q ∈ l, x ∈ q.2.2 := by
  have hinner : ∀ (ks : List String) (i : Nat) (acc : List (String × Nat)) (x : String),
      x ∈ ((ks.foldl (fun m2 uid => upsertNat m2 uid i) acc).map fun p => p.1) →
      (x ∈ (acc.map fun p => p.1)) ∨ x ∈ ks := by
    intro ks
    induction ks with
    | nil => intro i acc x h; exact Or.inl h
    | cons u rest ih =>
      intro i acc x h
      rw [List.foldl_cons] at h
      rcases ih i (upsertNat acc u i) x h with h2 | h2
      · rw [upsertNat_keys] at h2
        by_cases hany : acc.any (fun p => p.1 == u) = true
        · rw [if_pos hany] at h2
          exact Or.inl h2
        · rw [if_neg hany] at h2
          rcases List.mem_append.mp h2 with h3 | h3
          · exact Or.inl h3
          · rw [List.mem_singleton] at h3
            exact Or.inr (h3 ▸ List.mem_cons_self u rest)
      · exact Or.inr (List.mem_cons_of_mem u h2)
  intro l
  induction l with
  | nil => intro acc x h; exact Or.inl h
  | cons q rest ih =>
    intro acc x h
    rw [List.foldl_cons] at h
    rcases ih _ x h with h2 | h2
    · rcases hinner q.2.2 q.1 acc x h2 with h3 | h3
      · exact Or.inl h3
      · exact Or.inr ⟨q, List.mem_cons_self q rest, h3⟩
    · obtain ⟨q2, hq2, hx⟩ := h2
      exact Or.inr ⟨q2, List.mem_cons_of_mem q hq2, hx⟩

/-- If a user id is in no surviving bucket, `node_cluster_map` has no
entry for it. -/
theorem lookup_nodeClusterMap_none (valid : List (String × List String)) (uid : String)
    (h : ∀ q ∈ valid, uid ∉ q.2) :
    lookupStr (buildNodeClusterMap valid) uid = none := by
  unfold lookupStr
  rw [Option.map_eq_none', List.find?_eq_none]
  intro p hp
  rw [Bool.not_eq_true, beq_eq_false_iff_ne]
  intro hcontra
  have hmem : uid ∈ ((buildNodeClusterMap valid).map fun p => p.1) := by
    rw [← hcontra]
    exact List.mem_map_of_mem (fun p => p.1) hp
  unfold buildNodeClusterMap at hmem
  rcases mem_keys_nodeClusterMap_fold valid.enum [] uid hmem with h2 | h2
  · exact absurd h2 (List.not_mem_nil uid)
  · obtain ⟨q, hq, hx⟩ := h2
    exact h q.2 (snd_mem_of_mem_enum 0 valid q hq) hx

/-- Claim C10: for skill-based clustering with any `minClusterSize`,
every returned cluster has at least `minClusterSize` members (with
`size` equal to its member count), and every skill-keyed group with
fewer than `minClusterSize` members is dropped entirely: none of its
members has an entry in the node-cluster map, so each such node is
returned untouched, with no cluster assignment. -/
theorem small_skill_groups_dropped (choose : List String → String)
    (nodes : List GraphNode) (rows : List (String × String)) (minClusterSize : Nat) :
    (∀ cl ∈ (getClusteredGraph choose nodes rows minClusterSize).clusters,
       minClusterSize ≤ cl.size ∧ cl.size = cl.node_ids.length) ∧
    (∀ p ∈ buildSkillClusters choose (buildUserSkillMap rows),
       p.2.length < minClusterSize →
       ∀ uid ∈ p.2,
         lookupStr (clusteredNodeMap choose rows minClusterSize) uid = none ∧
         ∀ n ∈ nodes, n.id = uid →
           updateNodeCluster (clusteredNodeMap choose rows minClusterSize) n = n ∧
           n ∈ (getClusteredGraph choose nodes rows minClusterSize).nodes) := by
  constructor
  · intro cl hcl
    unfold getClusteredGraph buildClusters at hcl
    obtain ⟨q, hq, rfl⟩ := List.mem_map.mp hcl
    have hqv : q.2 ∈ validClusters minClusterSize
        (buildSkillClusters choose (buildUserSkillMap rows)) :=
      snd_mem_of_mem_enum 0 _ q hq
    have := (List.mem_filter.mp hqv).2
    simp only [decide_eq_true_eq] at this
    exact ⟨this, rfl⟩
  · intro p hp hsmall uid huid
    have hnone : lookupStr (clusteredNodeMap choose rows minClusterSize) uid = none := by
      unfold clusteredNodeMap
      apply lookup_nodeClusterMap_none
      intro q hq hmemq
      have hqsc : q ∈ buildSkillClusters choose (buildUserSkillMap rows) :=
        (List.mem_filter.mp hq).1
      have hqbig : minClusterSize ≤ q.2.length := by
        have := (List.mem_filter.mp hq).2
        simpa using this
      have hpq : p ≠ q := by
        intro hcontra
        rw [hcontra] at hsmall
        omega
      have h2 := two_le_count_bucket_members
        (buildSkillClusters choose (buildUserSkillMap rows)) p q hp hqsc hpq uid
        huid hmemq
      have h1 := count_members_buildSkillClusters_le_one choose rows uid
      omega
    refine ⟨hnone, ?_⟩
    intro n hn hid
    have hupdate : updateNodeCluster (clusteredNodeMap choose rows minClusterSize) n = n := by
      unfold updateNodeCluster
      rw [hid, hnone]
    refine ⟨hupdate, ?_⟩
    have hmem := List.mem_map_of_mem
      (updateNodeCluster (clusteredNodeMap choose rows minClusterSize)) hn
    rw [hupdate] at hmem
    exact hmem

/-- Claim C10, witness: with rows grouping user `a` under skill `S`
(alone) and users `b`, `c`, `d` under skill `T`, and
`minClusterSize = 3`, the singleton group `S` is dropped — user `a` has
no entry in the node-cluster map and its node is returned unchanged. -/
theorem small_skill_groups_dropped_witness :
    lookupStr (clusteredNodeMap (fun l => l.headD "")
      [("a", "S"), ("b", "T"), ("c", "T"), ("d", "T")] 3) "a" = none ∧
    updateNodeCluster (clusteredNodeMap (fun l => l.headD "")
        [("a", "S"), ("b", "T"), ("c", "T"), ("d", "T")] 3)
      ⟨"a", "user", "A", none, none, none, none⟩ =
      ⟨"a", "user", "A", none, none, none, none⟩ := by
  have h := (small_skill_groups_dropped (fun l => l.headD "")
    [⟨"a", "user", "A", none, none, none, none⟩]
    [("a", "S"), ("b", "T"), ("c", "T"), ("d", "T")] 3).2
    ("S", ["a"]) (by decide) (by decide) "a" (by decide)
  exact ⟨h.1, (h.2 ⟨"a", "user", "A", none, none, none, none⟩ (by decide) rfl).1⟩

end Innonet
